import Mathlib

/-!
Verification of MCPHawk's capture and analytics pipeline.

This development shallowly embeds the parts of the `mcphawk` Python package
that the checked properties are about:

* `mcphawk/utils.py` — JSON message parsing and message-type classification;
* `mcphawk/transport_detector.py` — transport detection and the sticky
  `TransportTracker`;
* `mcphawk/tcp_reassembly.py` — per-connection HTTP/SSE/chunked stream
  reassembly (`HTTPStream`, `TCPStreamReassembler`);
* `mcphawk/sniffer.py` — the packet callback that turns reassembled or raw
  payloads into log entries;
* `mcphawk/wrapper.py` — the stdio wrapper's stdout line scanner;
* `mcphawk/web/metrics.py` — the error timeline and performance analytics;
* `mcphawk/logger.py` — the SQLite-backed store's read operations.

Python strings and byte strings are modelled as `String` / `List Char`
(all payloads of interest are ASCII), Python dicts as association lists
with the same membership and lookup behaviour, `datetime` values as
integer milliseconds since an arbitrary epoch, and float arithmetic that
is exact at every evaluated input as exact rational arithmetic (each such
place is noted where it occurs).  Code that can raise an uncaught Python
exception is modelled in `Except Unit`.
-/

namespace MCPHawk

set_option maxRecDepth 20000

/-! ## JSON values and the `json.loads` model

`Json` mirrors the values Python's `json.loads` can produce for the inputs
that occur in this development.  Number literals with a fraction or exponent
part are kept as raw text (`numRaw`): no checked property depends on float
semantics, only on parse success and key structure.
-/

inductive Json where
  | null
  | bool (b : Bool)
  | num (n : Int)
  | numRaw (raw : String)
  | str (s : String)
  | arr (elems : List Json)
  | obj (fields : List (String × Json))

mutual

/-- Structural equality of JSON values, modelling Python `==` on the values
`json.loads` produces.  (Python's numeric cross-type equality such as
`1 == 1.0` is not reproduced; no evaluated input relies on it.) -/
def Json.beq : Json → Json → Bool
  | .null, .null => true
  | .bool a, .bool b => a == b
  | .num a, .num b => a == b
  | .numRaw a, .numRaw b => a == b
  | .str a, .str b => a == b
  | .arr xs, .arr ys => Json.beqList xs ys
  | .obj fs, .obj gs => Json.beqFields fs gs
  | _, _ => false

def Json.beqList : List Json → List Json → Bool
  | [], [] => true
  | x :: xs, y :: ys => Json.beq x y && Json.beqList xs ys
  | _, _ => false

def Json.beqFields : List (String × Json) → List (String × Json) → Bool
  | [], [] => true
  | (k1, v1) :: xs, (k2, v2) :: ys =>
    k1 == k2 && Json.beq v1 v2 && Json.beqFields xs ys
  | _, _ => false

end

instance : BEq Json := ⟨Json.beq⟩

instance {ε α : Type} [DecidableEq ε] [DecidableEq α] : DecidableEq (Except ε α) :=
  fun a b =>
    match a, b with
    | .ok x, .ok y =>
      if h : x = y then isTrue (by rw [h]) else isFalse (fun hc => h (Except.ok.inj hc))
    | .error x, .error y =>
      if h : x = y then isTrue (by rw [h]) else isFalse (fun hc => h (Except.error.inj hc))
    | .ok _, .error _ => isFalse (fun hc => Except.noConfusion hc)
    | .error _, .ok _ => isFalse (fun hc => Except.noConfusion hc)

/-- Python truthiness (`if not parsed: ...`): `None`, `False`, `0`, `""`,
`[]` and the empty dict are falsy.  A `numRaw` literal is treated as truthy
(noted: `0.0` would be falsy in Python; no evaluated input contains such a
literal). -/
def Json.isTruthy : Json → Bool
  | .null => false
  | .bool b => b
  | .num n => n != 0
  | .numRaw _ => true
  | .str s => !s.data.isEmpty
  | .arr xs => !xs.isEmpty
  | .obj fs => !fs.isEmpty

/-- Is the value a JSON object (a Python `dict`)? -/
def Json.isObj : Json → Bool
  | .obj _ => true
  | _ => false

/-- Python's `key in parsed` on the dict produced by `json.loads`. -/
def Json.hasKey (j : Json) (k : String) : Bool :=
  match j with
  | .obj fields => fields.any (fun kv => kv.1 == k)
  | _ => false

/-- Python's `parsed.get(key)` / `parsed[key]`.  With duplicate keys,
`json.loads` keeps the last occurrence, hence the reversed search. -/
def Json.getKey? (j : Json) (k : String) : Option Json :=
  match j with
  | .obj fields => (fields.reverse.find? (fun kv => kv.1 == k)).map (fun kv => kv.2)
  | _ => none

/-! ### A recursive-descent JSON parser

The parser follows the JSON grammar accepted by `json.loads` (strict mode):
whitespace is space, tab, CR, LF; strings use the standard escapes
(`\uXXXX` maps to the code point; surrogate pairs are not combined — none
occur in any evaluated input); integers reject leading zeros.  Recursion is
fuelled; `parseJson` supplies enough fuel for any input. -/

def isJsonWs (c : Char) : Bool :=
  c == ' ' || c == '\t' || c == '\n' || c == '\r'

def skipWs : List Char → List Char
  | [] => []
  | c :: cs => if isJsonWs c then skipWs cs else c :: cs

def hexVal? (c : Char) : Option Nat :=
  if '0' ≤ c ∧ c ≤ '9' then some (c.toNat - '0'.toNat)
  else if 'a' ≤ c ∧ c ≤ 'f' then some (c.toNat - 'a'.toNat + 10)
  else if 'A' ≤ c ∧ c ≤ 'F' then some (c.toNat - 'A'.toNat + 10)
  else none

def parseStringBody (fuel : Nat) (cs : List Char) (acc : List Char) :
    Option (String × List Char) :=
  match fuel, cs with
  | 0, _ => none
  | _, [] => none
  | fuel + 1, c :: cs =>
    if c == '"' then some (String.mk acc.reverse, cs)
    else if c == '\\' then
      match cs with
      | [] => none
      | e :: cs' =>
        if e == '"' then parseStringBody fuel cs' ('"' :: acc)
        else if e == '\\' then parseStringBody fuel cs' ('\\' :: acc)
        else if e == '/' then parseStringBody fuel cs' ('/' :: acc)
        else if e == 'b' then parseStringBody fuel cs' ('\x08' :: acc)
        else if e == 'f' then parseStringBody fuel cs' ('\x0c' :: acc)
        else if e == 'n' then parseStringBody fuel cs' ('\n' :: acc)
        else if e == 'r' then parseStringBody fuel cs' ('\r' :: acc)
        else if e == 't' then parseStringBody fuel cs' ('\t' :: acc)
        else if e == 'u' then
          match cs' with
          | h1 :: h2 :: h3 :: h4 :: rest =>
            match hexVal? h1, hexVal? h2, hexVal? h3, hexVal? h4 with
            | some d1, some d2, some d3, some d4 =>
              parseStringBody fuel rest
                (Char.ofNat (((d1 * 16 + d2) * 16 + d3) * 16 + d4) :: acc)
            | _, _, _, _ => none
          | _ => none
        else none
    else parseStringBody fuel cs (c :: acc)

def isDigitChar (c : Char) : Bool :=
  decide ('0' ≤ c) && decide (c ≤ '9')

def takeDigits : List Char → List Char × List Char
  | [] => ([], [])
  | c :: cs =>
    if isDigitChar c then
      let p := takeDigits cs
      (c :: p.1, p.2)
    else ([], c :: cs)

def digitsToNat (ds : List Char) : Nat :=
  ds.foldl (fun acc c => acc * 10 + (c.toNat - '0'.toNat)) 0

/-- Consume the digits of an exponent part: optional sign, then at least
one digit.  Returns the remaining input. -/
def parseExpRest (cs : List Char) : Option (List Char) :=
  let cs1 :=
    match cs with
    | '+' :: t => t
    | '-' :: t => t
    | _ => cs
  let p := takeDigits cs1
  if p.1.isEmpty then none else some p.2

/-- Parse a JSON number starting at `cs` (first char is `-` or a digit).
Integer literals become `Json.num`; literals with a `.` or an exponent are
kept raw (as the consumed text) in `Json.numRaw`. -/
def parseNumber (cs : List Char) : Option (Json × List Char) :=
  let signSplit :=
    match cs with
    | '-' :: t => (true, t)
    | _ => (false, cs)
  let neg := signSplit.1
  let p1 := takeDigits signSplit.2
  match p1.1 with
  | [] => none
  | d0 :: moreDs =>
    if d0 == '0' && !moreDs.isEmpty then none
    else
      let afterInt := p1.2
      match afterInt with
      | '.' :: t =>
        let p2 := takeDigits t
        if p2.1.isEmpty then none
        else
          match p2.2 with
          | e :: t2 =>
            if e == 'e' || e == 'E' then
              match parseExpRest t2 with
              | some cs4 =>
                some (.numRaw (String.mk (cs.take (cs.length - cs4.length))), cs4)
              | none => none
            else
              some (.numRaw (String.mk (cs.take (cs.length - (e :: t2).length))), e :: t2)
          | [] =>
            some (.numRaw (String.mk cs), [])
      | e :: t2 =>
        if e == 'e' || e == 'E' then
          match parseExpRest t2 with
          | some cs4 =>
            some (.numRaw (String.mk (cs.take (cs.length - cs4.length))), cs4)
          | none => none
        else
          let v : Int := Int.ofNat (digitsToNat (d0 :: moreDs))
          some (.num (if neg then -v else v), afterInt)
      | [] =>
        let v : Int := Int.ofNat (digitsToNat (d0 :: moreDs))
        some (.num (if neg then -v else v), [])

mutual

def parseValue (fuel : Nat) (cs : List Char) : Option (Json × List Char) :=
  match fuel with
  | 0 => none
  | fuel + 1 =>
    match skipWs cs with
    | [] => none
    | c :: rest =>
      if c == '\x7b' then
        match skipWs rest with
        | '\x7d' :: rest2 => some (.obj [], rest2)
        | rest2 => parseMembers fuel rest2 []
      else if c == '[' then
        match skipWs rest with
        | ']' :: rest2 => some (.arr [], rest2)
        | rest2 => parseElems fuel rest2 []
      else if c == '"' then
        match parseStringBody (rest.length + 1) rest [] with
        | some (s, rest2) => some (.str s, rest2)
        | none => none
      else if c == 't' then
        match rest with
        | 'r' :: 'u' :: 'e' :: rest2 => some (.bool true, rest2)
        | _ => none
      else if c == 'f' then
        match rest with
        | 'a' :: 'l' :: 's' :: 'e' :: rest2 => some (.bool false, rest2)
        | _ => none
      else if c == 'n' then
        match rest with
        | 'u' :: 'l' :: 'l' :: rest2 => some (.null, rest2)
        | _ => none
      else if c == '-' || isDigitChar c then
        parseNumber (c :: rest)
      else none

/-- Parse the members of an object, positioned at a key (after `{` and
leading whitespace, first member not yet consumed). -/
def parseMembers (fuel : Nat) (cs : List Char) (acc : List (String × Json)) :
    Option (Json × List Char) :=
  match fuel with
  | 0 => none
  | fuel + 1 =>
    match cs with
    | '"' :: rest =>
      match parseStringBody (rest.length + 1) rest [] with
      | some (k, rest2) =>
        match skipWs rest2 with
        | ':' :: rest3 =>
          match parseValue fuel rest3 with
          | some (v, rest4) =>
            match skipWs rest4 with
            | ',' :: rest5 => parseMembers fuel (skipWs rest5) (acc ++ [(k, v)])
            | '\x7d' :: rest5 => some (.obj (acc ++ [(k, v)]), rest5)
            | _ => none
          | none => none
        | _ => none
      | none => none
    | _ => none

/-- Parse the elements of an array, positioned at a value. -/
def parseElems (fuel : Nat) (cs : List Char) (acc : List Json) :
    Option (Json × List Char) :=
  match fuel with
  | 0 => none
  | fuel + 1 =>
    match parseValue fuel cs with
    | some (v, rest) =>
      match skipWs rest with
      | ',' :: rest2 => parseElems fuel rest2 (acc ++ [v])
      | ']' :: rest2 => some (.arr (acc ++ [v]), rest2)
      | _ => none
    | none => none

end

/-- The model of `json.loads`: parse one JSON document, allowing only
trailing whitespace (anything else is "Extra data" and fails, as in
Python). -/
def parseJson (s : String) : Option Json :=
  match parseValue (s.data.length * 2 + 8) s.data with
  | some (j, rest) => if (skipWs rest).isEmpty then some j else none
  | none => none

/-! ## `mcphawk/utils.py`: message parsing and classification -/

/-- `utils.parse_message`: parse the message string as JSON, returning
`none` on a decode error.  (The argument is always a `str` here, so the
`isinstance` branch and the `TypeError` case do not arise.) -/
def parse_message (s : String) : Option Json :=
  parseJson s

/-- `utils.get_message_type`.  The source first checks Python truthiness of
the parse result (`if not parsed`), then calls `.get` on it: for a truthy
non-dict JSON value (for example `[1]`, `"x"`, `5`, `true`) this raises an
uncaught `AttributeError`, modelled as `Except.error ()`.  Otherwise the
checks run in source order: `error`+`id`, then `result`+`id`, then
`method`+`id`, then `method` without `id`, after requiring
`jsonrpc == "2.0"`. -/
def get_message_type (message : String) : Except Unit String :=
  match parse_message message with
  | none => .ok "unknown"
  | some parsed =>
    if !parsed.isTruthy then .ok "unknown"
    else
      match parsed with
      | .obj fields =>
        let j := Json.obj fields
        .ok <|
          if !(j.getKey? "jsonrpc" == some (.str "2.0")) then "unknown"
          else if j.hasKey "error" && j.hasKey "id" then "error"
          else if j.hasKey "result" && j.hasKey "id" then "response"
          else if j.hasKey "method" && j.hasKey "id" then "request"
          else if j.hasKey "method" && !j.hasKey "id" then "notification"
          else "unknown"
      | _ => .error ()

/-- Modelled from claim C2's words: the classifier "computed by: method and
id present ⇒ request; method present and id absent ⇒ notification; result
and id present ⇒ response; error and id present ⇒ error; anything else ⇒
unknown (with these rules applied in that order when shapes overlap)". -/
def classify_message_type_claim (message : String) : String :=
  match parse_message message with
  | none => "unknown"
  | some j =>
    if j.hasKey "method" && j.hasKey "id" then "request"
    else if j.hasKey "method" && !j.hasKey "id" then "notification"
    else if j.hasKey "result" && j.hasKey "id" then "response"
    else if j.hasKey "error" && j.hasKey "id" then "error"
    else "unknown"

/-- Modelled from the amended claim C2: messages that do not parse, parse to
a falsy value, or are JSON-RPC-version-mismatched objects classify as
`unknown`; truthy non-object JSON raises; on `jsonrpc == "2.0"` objects the
rules apply in the order error, response, request, notification. -/
def classify_message_type_spec (message : String) : Except Unit String :=
  match parse_message message with
  | none => .ok "unknown"
  | some j =>
    if !j.isTruthy then .ok "unknown"
    else if !j.isObj then .error ()
    else .ok <|
      if !(j.getKey? "jsonrpc" == some (.str "2.0")) then "unknown"
      else if j.hasKey "error" && j.hasKey "id" then "error"
      else if j.hasKey "result" && j.hasKey "id" then "response"
      else if j.hasKey "method" && j.hasKey "id" then "request"
      else if j.hasKey "method" && !j.hasKey "id" then "notification"
      else "unknown"

/-! ## Generic helpers: substring search, case folding, dictionaries, sorting -/

/-- Does `l` start with `pat`?  (Python `bytes.startswith` on the tail.) -/
def listStartsWith : List Char → List Char → Bool
  | _, [] => true
  | [], _ :: _ => false
  | a :: as, b :: bs => a == b && listStartsWith as bs

/-- Index of the first occurrence of `pat` in the list, or `none`
(Python `bytes.find` / the `in` operator). -/
def findSubFrom (pat : List Char) : List Char → Nat → Option Nat
  | l, i =>
    if listStartsWith l pat then some i
    else
      match l with
      | [] => none
      | _ :: t => findSubFrom pat t (i + 1)

def findSub (hay pat : List Char) : Option Nat :=
  findSubFrom pat hay 0

/-- Python's substring containment `pat in hay`. -/
def containsStr (hay pat : String) : Bool :=
  (findSub hay.data pat.data).isSome

/-- Python's `str.startswith`. -/
def strStartsWith (s pre : String) : Bool :=
  listStartsWith s.data pre.data

/-- Python's falsy test on a string (`if not s`). -/
def strIsEmpty (s : String) : Bool :=
  s.data.isEmpty

/-- Python's `s[n:]` for the small constant offsets used here. -/
def strDrop (s : String) (n : Nat) : String :=
  String.mk (s.data.drop n)

/-- The worker of `pySplit`, fuelled by the input length (each step consumes
at least one character; the separator is never empty here). -/
def pySplitAux (sep : List Char) (fuel : Nat) (cs : List Char)
    (acc : List String) : List String :=
  match fuel with
  | 0 => acc ++ [String.mk cs]
  | fuel + 1 =>
    match findSub cs sep with
    | none => acc ++ [String.mk cs]
    | some i =>
      pySplitAux sep fuel (cs.drop (i + sep.length)) (acc ++ [String.mk (cs.take i)])

/-- Python's `s.split(sep)` for a nonempty separator (also the behaviour of
`str.split(" ")`: empty pieces are kept). -/
def pySplit (s sep : String) : List String :=
  pySplitAux sep.data (s.data.length + 1) s.data []

/-- Python whitespace for `str.strip` (space, tab, LF, CR, FF, VT). -/
def isPyWs (c : Char) : Bool :=
  c == ' ' || c == '\t' || c == '\n' || c == '\r' || c == '\x0c' || c == '\x0b'

/-- Python's `str.strip()` with no argument. -/
def pyStrip (s : String) : String :=
  String.mk (((s.data.dropWhile isPyWs).reverse.dropWhile isPyWs).reverse)

/-- ASCII-only lower casing, as SQLite's `LIKE` applies to `TEXT` values
(and as `str.lower` acts on the ASCII strings used here). -/
def asciiLowerChar (c : Char) : Char :=
  if 'A' ≤ c ∧ c ≤ 'Z' then Char.ofNat (c.toNat + 32) else c

def asciiLower (s : String) : String :=
  String.mk (s.data.map asciiLowerChar)

/-- Python's `line.split(sep, 1)`: split at the first occurrence of `sep`,
or `none` when `sep` does not occur. -/
def splitOnce (sep : String) (s : String) : Option (String × String) :=
  match findSub s.data sep.data with
  | none => none
  | some i =>
    some (String.mk (s.data.take i), String.mk (s.data.drop (i + sep.data.length)))

/-- Byte-order (here: code-point) comparison of characters, reducible in
evaluation. -/
def charLtB (a b : Char) : Bool :=
  decide (a.toNat < b.toNat)

/-- Lexicographic order on character lists: Python's `str` comparison and
SQLite's `TEXT` comparison for the ASCII strings used here. -/
def listLtChars (xs ys : List Char) : Bool :=
  match xs, ys with
  | [], [] => false
  | [], _ :: _ => true
  | _ :: _, [] => false
  | a :: as1, b :: bs1 =>
    if charLtB a b then true
    else if charLtB b a then false
    else listLtChars as1 bs1

/-- `a < b` on strings (Python tuple/string comparison, SQLite `ORDER BY`
on `TEXT`). -/
def strLtB (a b : String) : Bool :=
  listLtChars a.data b.data

/-- Python dict assignment `d[k] = v` on an association list: replace the
first binding in place, or append a new one (Python dicts keep insertion
order). -/
def alUpsert {κ α : Type} [BEq κ] (k : κ) (v : α) : List (κ × α) → List (κ × α)
  | [] => [(k, v)]
  | (k', v') :: t => if k' == k then (k, v) :: t else (k', v') :: alUpsert k v t

/-- Python dict lookup `d.get(k)` on an association list. -/
def alGet? {κ α : Type} [BEq κ] (k : κ) : List (κ × α) → Option α
  | [] => none
  | (k', v) :: t => if k' == k then some v else alGet? k t

/-- Python dict membership `k in d`. -/
def alHas {κ α : Type} [BEq κ] (k : κ) (l : List (κ × α)) : Bool :=
  (alGet? k l).isSome

/-- Python `del d[k]`: remove the (unique) binding of `k`. -/
def alErase {κ α : Type} [BEq κ] (k : κ) : List (κ × α) → List (κ × α)
  | [] => []
  | (k', v) :: t => if k' == k then t else (k', v) :: alErase k t

/-- Insertion into a sorted list, for the stable insertion sort below. -/
def insertSortedBy {α : Type} (le : α → α → Bool) (a : α) : List α → List α
  | [] => [a]
  | b :: t => if le a b then a :: b :: t else b :: insertSortedBy le a t

/-- Stable insertion sort, modelling both Python's `list.sort` and SQL
`ORDER BY` for the total orders used here. -/
def insertionSortBy {α : Type} (le : α → α → Bool) : List α → List α
  | [] => []
  | a :: t => insertSortedBy le a (insertionSortBy le t)

/-! ## `mcphawk/transport_detector.py` -/

inductive MCPTransport where
  | STDIO
  | STREAMABLE_HTTP
  | HTTP_SSE
  | UNKNOWN
deriving DecidableEq, Repr

/-- The `.value` strings of the `MCPTransport` enum. -/
def MCPTransport.value : MCPTransport → String
  | STDIO => "stdio"
  | .STREAMABLE_HTTP => "streamable_http"
  | .HTTP_SSE => "http_sse"
  | .UNKNOWN => "unknown"

/-- `detect_transport_from_http`.  The `response_contains_endpoint_event`
parameter is dropped: every caller passes `False` (or omits it), and the
`GET` + `Accept: text/event-stream` branch returns `HTTP_SSE` in either
case. -/
def detect_transport_from_http (method path : String)
    (headers : List (String × String)) (is_sse_response : Bool) : MCPTransport :=
  let _ := path
  let accept := asciiLower ((alGet? "accept" headers).getD "")
  if method == "GET" && accept == "text/event-stream" then
    .HTTP_SSE
  else if method == "POST" && containsStr accept "application/json" &&
      containsStr accept "text/event-stream" then
    .STREAMABLE_HTTP
  else if is_sse_response then
    if method == "POST" then .STREAMABLE_HTTP else .HTTP_SSE
  else
    .UNKNOWN

/-- `extract_endpoint_from_sse`: scan the stripped SSE block for the last
`event:` and `data:` lines; when the event is `endpoint`, parse the data as
JSON and return its `url` value.  (The source's `data.get("url")` would
raise on non-dict JSON; that path is unreached in every claim input and is
modelled as `none`.) -/
def extract_endpoint_from_sse (sse_data : String) : Option Json :=
  let lines := pySplit (pyStrip sse_data) "\n"
  let scan := lines.foldl
    (fun (st : Option String × Option String) line =>
      if strStartsWith line "event:" then (some (pyStrip (strDrop line 6)), st.2)
      else if strStartsWith line "data:" then (st.1, some (pyStrip (strDrop line 5)))
      else st)
    (none, none)
  match scan.1, scan.2 with
  | some ev, some dat =>
    if ev == "endpoint" && !(strIsEmpty dat) then
      match parseJson dat with
      | some j => j.getKey? "url"
      | none => none
    else none
  | _, _ => none

/-- Connection 4-tuple `(src_ip, src_port, dst_ip, dst_port)`. -/
structure ConnKey where
  src_ip : String
  src_port : Nat
  dst_ip : String
  dst_port : Nat
deriving DecidableEq, Repr

/-- Server endpoint 2-tuple `(ip, port)`. -/
structure ServerKey where
  ip : String
  port : Nat
deriving DecidableEq, Repr

/-- `TransportTracker`: per-connection and per-server sticky transport
classifications. -/
structure TransportTracker where
  transports : List (ConnKey × MCPTransport)
  endpoint_urls : List (ConnKey × String)
  http_sse_servers : List (ServerKey × MCPTransport)
deriving DecidableEq, Repr

def TransportTracker.empty : TransportTracker :=
  ⟨[], [], []⟩

/-- `TransportTracker.update_transport`: a non-`UNKNOWN` transport is stored
under the key and its reverse; `HTTP_SSE` additionally marks the
destination server endpoint.  An `UNKNOWN` update changes nothing. -/
def TransportTracker.update_transport (tr : TransportTracker)
    (src_ip : String) (src_port : Nat) (dst_ip : String) (dst_port : Nat)
    (transport : MCPTransport) : TransportTracker :=
  let key : ConnKey := ⟨src_ip, src_port, dst_ip, dst_port⟩
  let reverse_key : ConnKey := ⟨dst_ip, dst_port, src_ip, src_port⟩
  if transport ≠ MCPTransport.UNKNOWN then
    let tr := { tr with
      transports := alUpsert reverse_key transport (alUpsert key transport tr.transports) }
    if transport = MCPTransport.HTTP_SSE then
      { tr with
        http_sse_servers := alUpsert ⟨dst_ip, dst_port⟩ transport tr.http_sse_servers }
    else tr
  else tr

/-- `TransportTracker.get_transport`: exact connection first, then the
destination as a known HTTP+SSE server, then the source. -/
def TransportTracker.get_transport (tr : TransportTracker)
    (src_ip : String) (src_port : Nat) (dst_ip : String) (dst_port : Nat) :
    MCPTransport :=
  let key : ConnKey := ⟨src_ip, src_port, dst_ip, dst_port⟩
  match alGet? key tr.transports with
  | some t => t
  | none =>
    match alGet? (⟨dst_ip, dst_port⟩ : ServerKey) tr.http_sse_servers with
    | some t => t
    | none =>
      match alGet? (⟨src_ip, src_port⟩ : ServerKey) tr.http_sse_servers with
      | some t => t
      | none => MCPTransport.UNKNOWN

/-! ## `mcphawk/tcp_reassembly.py` -/

/-- Python truthiness of an optional string field (`if self.request_method
and self.request_path`). -/
def optStrTruthy : Option String → Bool
  | none => false
  | some s => !(strIsEmpty s)

/-- Request-header parsing in `HTTPStream.add_request`: lines with `": "`
are added (keys lower-cased), other lines are skipped, an empty line stops
the scan. -/
def parseReqHeaderLines : List String → List (String × String) → List (String × String)
  | [], acc => acc
  | line :: rest, acc =>
    match splitOnce ": " line with
    | some kv => parseReqHeaderLines rest (alUpsert (asciiLower kv.1) kv.2 acc)
    | none => if line == "" then acc else parseReqHeaderLines rest acc

/-- Response-header parsing in `HTTPStream.add_response_data`: every line
after the status line containing `": "` is added (keys lower-cased); there
is no early stop in the source. -/
def parseRespHeaderLines (lines : List String) : List (String × String) :=
  lines.foldl
    (fun acc line =>
      match splitOnce ": " line with
      | some kv => alUpsert (asciiLower kv.1) kv.2 acc
      | none => acc)
    []

/-- Python `int(s)` restricted to the plain digit strings that occur as
`Content-Length` values.  (The stored length is never read afterwards in
the source.) -/
def parseNatStr? (s : String) : Option Nat :=
  if !(strIsEmpty s) && s.data.all isDigitChar then some (digitsToNat s.data) else none

/-- Python `int(s, 16)` restricted to plain hexadecimal digit strings (no
sign, prefix or underscores — none occur in chunk-size lines). -/
def parseHexNat? (s : String) : Option Nat :=
  if !(strIsEmpty s) && s.data.all (fun c => (hexVal? c).isSome) then
    some (s.data.foldl (fun acc c => acc * 16 + ((hexVal? c).getD 0)) 0)
  else none

/-- The mutable per-connection `HTTPStream` object. -/
structure HTTPStream where
  pending_request : Option String
  response_headers : Option (List (String × String))
  content_length : Option Nat
  is_chunked : Bool
  is_sse : Bool
  buffer : List Char
  request_method : Option String
  request_path : Option String
  request_headers : List (String × String)
  detected_transport : MCPTransport
deriving DecidableEq, Repr

def HTTPStream.init : HTTPStream :=
  ⟨none, none, none, false, false, [], none, none, [], MCPTransport.UNKNOWN⟩

/-- `HTTPStream.add_request`: record the request, clear the body buffer,
parse the request line and headers, and run transport detection when both
method and path were recognised. -/
def HTTPStream.add_request (s : HTTPStream) (data : List Char) : HTTPStream :=
  let s := { s with pending_request := some (String.mk data), buffer := [] }
  let request_str := String.mk data
  let lines := pySplit request_str "\r\n"
  match lines with
  | [] => s
  | line0 :: restLines =>
    let parts := pySplit line0 " "
    let s :=
      if parts.length ≥ 2 then
        { s with request_method := some (parts.headD ""),
                 request_path := some ((parts.drop 1).headD ""),
                 request_headers := parseReqHeaderLines restLines [] }
      else
        { s with request_headers := parseReqHeaderLines restLines [] }
    if optStrTruthy s.request_method && optStrTruthy s.request_path then
      let dt := detect_transport_from_http (s.request_method.getD "")
        (s.request_path.getD "") s.request_headers false
      { s with detected_transport := dt }
    else s

/-- `HTTPStream.add_response_data`: append to the buffer; when headers have
not been parsed yet and the buffer contains `\r\n\r\n`, split them off,
record SSE/chunked/content-length flags and re-run transport detection when
a request was seen. -/
def HTTPStream.add_response_data (s : HTTPStream) (data : List Char) : HTTPStream :=
  let buf := s.buffer ++ data
  match s.response_headers with
  | some _ => { s with buffer := buf }
  | none =>
    match findSub buf "\r\n\r\n".data with
    | none => { s with buffer := buf }
    | some i =>
      let header_end := i + 4
      let header_data := String.mk (buf.take header_end)
      let body := buf.drop header_end
      let lines := pySplit header_data "\r\n"
      let headers := parseRespHeaderLines (lines.drop 1)
      let content_type := (alGet? "content-type" headers).getD ""
      let is_sse := containsStr content_type "text/event-stream"
      let transfer_encoding := (alGet? "transfer-encoding" headers).getD ""
      let is_chunked := containsStr transfer_encoding "chunked"
      let content_length :=
        if !is_chunked then
          match alGet? "content-length" headers with
          | some v => parseNatStr? v
          | none => s.content_length
        else s.content_length
      let s := { s with buffer := body, response_headers := some headers,
                        is_sse := is_sse, is_chunked := is_chunked,
                        content_length := content_length }
      if optStrTruthy s.request_method && optStrTruthy s.request_path then
        let dt := detect_transport_from_http (s.request_method.getD "")
          (s.request_path.getD "") s.request_headers is_sse
        { s with detected_transport := dt }
      else s

/-- The `while True` loop of `HTTPStream.extract_chunked_data`, returning
(the Python return value, the final `self.buffer`).  On an incomplete chunk
the source restores the original buffer but still returns the data
extracted so far. -/
def extract_chunked_loop (fuel : Nat) (buf origBuf acc : List Char) :
    Option (List Char) × List Char :=
  match fuel with
  | 0 => ((if acc.isEmpty then none else some acc), buf)
  | fuel + 1 =>
    match findSub buf "\r\n".data with
    | none => ((if acc.isEmpty then none else some acc), buf)
    | some size_end =>
      let chunk_size_str := pyStrip (String.mk (buf.take size_end))
      match parseHexNat? chunk_size_str with
      | none => ((if acc.isEmpty then none else some acc), buf)
      | some chunk_size =>
        if chunk_size == 0 then
          ((if acc.isEmpty then none else some acc), buf.drop (size_end + 4))
        else
          let chunk_start := size_end + 2
          let chunk_end := chunk_start + chunk_size + 2
          if buf.length < chunk_end then
            ((if acc.isEmpty then none else some acc), origBuf)
          else
            extract_chunked_loop fuel (buf.drop chunk_end) origBuf
              (acc ++ ((buf.drop chunk_start).take chunk_size))

/-- `HTTPStream.extract_chunked_data`. -/
def HTTPStream.extract_chunked_data (s : HTTPStream) :
    Option (List Char) × HTTPStream :=
  let r := extract_chunked_loop (s.buffer.length + 1) s.buffer s.buffer []
  (r.1, { s with buffer := r.2 })

/-- The SSE-event loop of `HTTPStream.extract_sse_messages`: split the data
at the earlier of `\r\n\r\n` / `\n\n`, set the transport to `HTTP_SSE` on a
truthy `endpoint` event URL, and collect every `data: ` line whose payload
(after stripping) is nonempty and starts with an opening brace. -/
def extract_sse_loop (fuel : Nat) (dat : List Char) (s : HTTPStream)
    (acc : List String) : List String × HTTPStream :=
  match fuel with
  | 0 => (acc, s)
  | fuel + 1 =>
    let crlf := findSub dat "\r\n\r\n".data
    let lf := findSub dat "\n\n".data
    match crlf, lf with
    | none, none => (acc, s)
    | _, _ =>
      let msg_end :=
        match crlf, lf with
        | some c, some l => if c < l then c + 4 else l + 2
        | some c, none => c + 4
        | none, some l => l + 2
        | none, none => 0
      let msg_data := String.mk (dat.take msg_end)
      let rest := dat.drop msg_end
      let s :=
        if containsStr msg_data "event: endpoint" then
          match extract_endpoint_from_sse msg_data with
          | some url =>
            if url.isTruthy then { s with detected_transport := MCPTransport.HTTP_SSE }
            else s
          | none => s
        else s
      let newMsgs := (pySplit msg_data "\n").filterMap
        (fun line =>
          if strStartsWith line "data: " then
            let json_data := pyStrip (strDrop line 6)
            if !(strIsEmpty json_data) && strStartsWith json_data "\x7b" then some json_data
            else none
          else none)
      extract_sse_loop fuel rest s (acc ++ newMsgs)

/-- `HTTPStream.extract_sse_messages`.  In the chunked case the extracted
chunk data is processed and the buffer keeps only unconsumed chunk bytes;
in the non-chunked case the source scans `self.buffer` without consuming it
(the local variable is rebound, the field is never written). -/
def HTTPStream.extract_sse_messages (s : HTTPStream) : List String × HTTPStream :=
  if s.is_chunked && !s.buffer.isEmpty then
    let r := s.extract_chunked_data
    match r.1 with
    | some chunk_data => extract_sse_loop (chunk_data.length + 1) chunk_data r.2 []
    | none => ([], r.2)
  else
    extract_sse_loop (s.buffer.length + 1) s.buffer s []

/-- `StreamKey`: the connection 4-tuple canonicalised so that the
lexicographically smaller `(ip, port)` endpoint comes first. -/
def streamKey (src_ip : String) (src_port : Nat) (dst_ip : String)
    (dst_port : Nat) : ConnKey :=
  if strLtB src_ip dst_ip || (src_ip == dst_ip && decide (src_port < dst_port)) then
    ⟨src_ip, src_port, dst_ip, dst_port⟩
  else
    ⟨dst_ip, dst_port, src_ip, src_port⟩

/-- A message dict emitted by `TCPStreamReassembler.process_packet`.  The
`transport` key is `none` for the final catch-all branch, whose dict does
not carry the key at all. -/
structure EmittedMsg where
  src_ip : String
  src_port : Nat
  dst_ip : String
  dst_port : Nat
  message : String
  type : String
  transport : Option String
deriving DecidableEq, Repr

/-- A TCP packet with a Raw payload.  Packets without a TCP or Raw layer
are dropped before any path modelled here. -/
structure Packet where
  src_ip : String
  src_port : Nat
  dst_ip : String
  dst_port : Nat
  payload : String
deriving DecidableEq, Repr

structure TCPStreamReassembler where
  streams : List (ConnKey × HTTPStream)
  transport_tracker : TransportTracker
deriving DecidableEq, Repr

def TCPStreamReassembler.init : TCPStreamReassembler :=
  ⟨[], TransportTracker.empty⟩

/-- `TCPStreamReassembler.process_packet`. -/
def TCPStreamReassembler.process_packet (r : TCPStreamReassembler)
    (pkt : Packet) : List EmittedMsg × TCPStreamReassembler :=
  let key := streamKey pkt.src_ip pkt.src_port pkt.dst_ip pkt.dst_port
  let stream := (alGet? key r.streams).getD HTTPStream.init
  let payload := pkt.payload.data
  if listStartsWith payload "POST ".data || listStartsWith payload "GET ".data then
    let stream := stream.add_request payload
    let tracker :=
      if stream.detected_transport ≠ MCPTransport.UNKNOWN then
        r.transport_tracker.update_transport pkt.src_ip pkt.src_port
          pkt.dst_ip pkt.dst_port stream.detected_transport
      else r.transport_tracker
    ([], ⟨alUpsert key stream r.streams, tracker⟩)
  else if listStartsWith payload "HTTP/1.".data then
    let stream := stream.add_response_data payload
    if stream.is_sse then
      let es := stream.extract_sse_messages
      let msgs := es.1
      let stream := es.2
      let tracker := msgs.foldl
        (fun tk _ =>
          if stream.detected_transport ≠ MCPTransport.UNKNOWN then
            tk.update_transport pkt.src_ip pkt.src_port pkt.dst_ip pkt.dst_port
              stream.detected_transport
          else tk)
        r.transport_tracker
      let out := msgs.map (fun m =>
        EmittedMsg.mk pkt.src_ip pkt.src_port pkt.dst_ip pkt.dst_port m
          "sse_response" (some stream.detected_transport.value))
      (out, ⟨alUpsert key stream r.streams, tracker⟩)
    else
      ([], ⟨alUpsert key stream r.streams, r.transport_tracker⟩)
  else if listStartsWith payload "data: ".data && containsStr pkt.payload "jsonrpc" then
    let stream := { stream with buffer := payload }
    let es := stream.extract_sse_messages
    let msgs := es.1
    let stream := es.2
    let transport := r.transport_tracker.get_transport pkt.src_ip pkt.src_port
      pkt.dst_ip pkt.dst_port
    let out := msgs.map (fun m =>
      EmittedMsg.mk pkt.src_ip pkt.src_port pkt.dst_ip pkt.dst_port m
        "sse_data" (some transport.value))
    (out, ⟨alUpsert key stream r.streams, r.transport_tracker⟩)
  else if stream.response_headers.isSome && stream.is_sse && payload.length > 0 then
    let stream := stream.add_response_data payload
    let es := stream.extract_sse_messages
    let msgs := es.1
    let stream := es.2
    let tracker := msgs.foldl
      (fun tk _ =>
        if stream.detected_transport ≠ MCPTransport.UNKNOWN then
          tk.update_transport pkt.src_ip pkt.src_port pkt.dst_ip pkt.dst_port
            stream.detected_transport
        else tk)
      r.transport_tracker
    let out := msgs.map (fun m =>
      EmittedMsg.mk pkt.src_ip pkt.src_port pkt.dst_ip pkt.dst_port m
        "sse_continuation" (some stream.detected_transport.value))
    (out, ⟨alUpsert key stream r.streams, tracker⟩)
  else if payload.length > 0 then
    if stream.response_headers.isSome then
      let stream := stream.add_response_data payload
      if stream.is_sse then
        let es := stream.extract_sse_messages
        let msgs := es.1
        let stream := es.2
        let out := msgs.map (fun m =>
          EmittedMsg.mk pkt.src_ip pkt.src_port pkt.dst_ip pkt.dst_port m
            "sse_continuation" none)
        (out, ⟨alUpsert key stream r.streams, r.transport_tracker⟩)
      else
        ([], ⟨alUpsert key stream r.streams, r.transport_tracker⟩)
    else
      ([], ⟨alUpsert key stream r.streams, r.transport_tracker⟩)
  else
    ([], ⟨alUpsert key stream r.streams, r.transport_tracker⟩)

/-- `TCPStreamReassembler.cleanup_old_streams`: the source body is a
`TODO`-marked `pass`, so the reassembler state is returned unchanged. -/
def TCPStreamReassembler.cleanup_old_streams (r : TCPStreamReassembler)
    (timeout : Nat) : TCPStreamReassembler :=
  let _ := timeout
  r

/-! ## `mcphawk/sniffer.py`: the packet callback

`log_id` (a fresh UUID), `timestamp` (the wall clock) and the optional
`metadata` built from the in-memory server registry are omitted from the
modelled entry: they are nondeterministic or unused by every checked
property (the registry only ever adds `server_name`/`server_version`
metadata and never affects `direction`, `message` or `transport_type`). -/

structure LogEntry where
  src_ip : String
  src_port : Nat
  dst_ip : String
  dst_port : Nat
  direction : String
  message : String
  transport_type : String
deriving DecidableEq, Repr

/-- The per-message body of the reassembled-message loop in
`packet_callback`: messages whose text contains `"jsonrpc"` become entries;
direction is `"incoming"` only when the dict's `type` equals
`"HTTP Response"`, otherwise `"outgoing"`; the transport defaults to
`"unknown"` when the dict carries no `transport` key. -/
def reassembled_entry (mi : EmittedMsg) : Option LogEntry :=
  if containsStr mi.message "jsonrpc" then
    let direction := if mi.type == "HTTP Response" then "incoming" else "outgoing"
    some ⟨mi.src_ip, mi.src_port, mi.dst_ip, mi.dst_port, direction,
      mi.message, mi.transport.getD "unknown"⟩
  else none

/-- Python's cut of SSE data at the first newline:
`sse_data[:sse_data.index("\n")]` guarded by `"\n" in sse_data`. -/
def cutAtNewline (s : String) : String :=
  match findSub s.data "\n".data with
  | some i => String.mk (s.data.take i)
  | none => s

/-- The raw-payload section of `packet_callback` (everything below the
reassembled-message loop): strip standalone SSE framing, strip an HTTP
request/response envelope, and log the result when it starts with an
opening brace and contains `"jsonrpc"`.  Direction is inferred from the
parsed shape; parse failure leaves it `"unknown"` but still logs. -/
def raw_decoded (payload : String) : String :=
  let decoded := payload
  let decoded :=
    if strStartsWith decoded "data: " && containsStr decoded "jsonrpc" then
      let sse_data := cutAtNewline (strDrop decoded 6)
      if strStartsWith sse_data "\x7b" then sse_data else decoded
    else decoded
  if (strStartsWith decoded "POST" || strStartsWith decoded "HTTP/1.1") &&
      containsStr decoded "\r\n\r\n" then
    let body_start := (findSub decoded.data "\r\n\r\n".data).getD 0 + 4
    let json_body := String.mk (decoded.data.drop body_start)
    if containsStr decoded "text/event-stream" && strStartsWith json_body "data: " then
      let sse_data := cutAtNewline (strDrop json_body 6)
      if strStartsWith sse_data "\x7b" && containsStr sse_data "jsonrpc" then sse_data
      else decoded
    else if strStartsWith json_body "\x7b" && containsStr json_body "jsonrpc" then
      json_body
    else decoded
  else decoded

/-- The direction inference of the raw-payload section. -/
def raw_direction (decoded : String) : String :=
  match parseJson decoded with
  | some msg =>
    if msg.hasKey "result" || msg.hasKey "error" then "incoming"
    else if msg.hasKey "method" then "outgoing"
    else "unknown"
  | none => "unknown"

/-- The final guard-and-log step of the raw-payload section, on the already
stripped text. -/
def raw_entry_of (tracker : TransportTracker) (pkt : Packet)
    (decoded : String) : Option LogEntry :=
  if strStartsWith decoded "\x7b" && containsStr decoded "jsonrpc" then
    some ⟨pkt.src_ip, pkt.src_port, pkt.dst_ip, pkt.dst_port,
      raw_direction decoded, decoded,
      (tracker.get_transport pkt.src_ip pkt.src_port
        pkt.dst_ip pkt.dst_port).value⟩
  else none

def raw_path_entry (tracker : TransportTracker) (pkt : Packet) : Option LogEntry :=
  raw_entry_of tracker pkt (raw_decoded pkt.payload)

/-- `packet_callback`: skip excluded ports, drive the reassembler, turn
reassembled messages into entries, then run the raw-payload section (which
reads the tracker state left by reassembly). -/
def packet_callback (excluded_ports : List Nat) (r : TCPStreamReassembler)
    (pkt : Packet) : TCPStreamReassembler × List LogEntry :=
  if excluded_ports ≠ [] ∧
      (pkt.src_port ∈ excluded_ports ∨ pkt.dst_port ∈ excluded_ports) then
    (r, [])
  else
    let pr := r.process_packet pkt
    let entries := pr.1.filterMap reassembled_entry
    let entries :=
      match raw_path_entry pr.2.transport_tracker pkt with
      | some e => entries ++ [e]
      | none => entries
    (pr.2, entries)

/-- Feed a list of packets through `packet_callback`, collecting the
entries inserted into the store (in insertion order). -/
def run_packets (excluded_ports : List Nat) (r : TCPStreamReassembler)
    (pkts : List Packet) : TCPStreamReassembler × List LogEntry :=
  match pkts with
  | [] => (r, [])
  | p :: ps =>
    let step := packet_callback excluded_ports r p
    let rest := run_packets excluded_ports step.1 ps
    (rest.1, step.2 ++ rest.2)

/-! ## `mcphawk/wrapper.py`: the stdio wrapper's stream scanner

The wrapper's log entry keeps the parsed JSON value as the message: the
source stores `json.dumps(msg)` and no checked property depends on the
exact serialisation.  `log_id`, `timestamp` and the metadata dict are
omitted as in `LogEntry`. -/

structure WrapEntry where
  src_ip : String
  dst_ip : String
  direction : String
  message : Json
  transport_type : String
  pid : Nat

/-- `MCPWrapper._log_jsonrpc_message`: ports are absent (`None`), the
transport is `stdio`, the pid is the child's. -/
def log_jsonrpc_message (pid : Nat) (message : Json) (direction : String) :
    WrapEntry :=
  if direction == "client->server" then
    ⟨"mcp-client", "mcp-server", "outgoing", message, "stdio", pid⟩
  else
    ⟨"mcp-server", "mcp-client", "incoming", message, "stdio", pid⟩

/-- `MCPWrapper._try_parse_json`: parse the whole line as one JSON document
(`json.loads`); on failure, or when the parse result is not a dict with
`jsonrpc == "2.0"`, nothing is logged (the `AttributeError` that `.get`
raises on a non-dict is swallowed by the generic handler).  The
`initialize` info extraction only feeds the omitted metadata. -/
def try_parse_json (pid : Nat) (line : String) (direction : String) :
    List WrapEntry :=
  if strIsEmpty (pyStrip line) then []
  else
    match parseJson line with
    | none => []
    | some msg =>
      if msg.getKey? "jsonrpc" == some (.str "2.0") then
        [log_jsonrpc_message pid msg direction]
      else []

/-- The character loop shared by `_forward_stdin` and `_forward_stdout`:
bytes accumulate in a buffer; at each newline the stripped buffer is handed
to `_try_parse_json` and the buffer is cleared.  Bytes after the final
newline are never scanned. -/
def forward_scan_loop (pid : Nat) (direction : String) :
    List Char → List Char → List WrapEntry → List WrapEntry
  | [], _, acc => acc
  | c :: rest, buf, acc =>
    if c == '\n' then
      let line := pyStrip (String.mk (buf ++ [c]))
      let acc :=
        if strIsEmpty line then acc
        else acc ++ try_parse_json pid line direction
      forward_scan_loop pid direction rest [] acc
    else
      forward_scan_loop pid direction rest (buf ++ [c]) acc

/-- `MCPWrapper._forward_stdout` restricted to its observable effect: the
entries logged while forwarding the child's stdout bytes.  The direction is
`"server->client"`, so every logged entry is `incoming`. -/
def forward_stdout_entries (pid : Nat) (stdout_data : String) : List WrapEntry :=
  forward_scan_loop pid "server->client" stdout_data.data [] []

/-! ## `mcphawk/web/metrics.py`

A row of the `logs` table as the metrics queries read it: the timestamp
(an ISO string in SQLite, here milliseconds since an arbitrary epoch; every
evaluated instant is millisecond-aligned, where Python's float
`total_seconds() * 1000` is exact) and the message text.  The SQL
`WHERE timestamp >= ? AND timestamp <= ? ORDER BY timestamp ASC` part is
modelled by taking the row list as the window contents in ascending
timestamp order. -/

structure MetricRow where
  timestamp_ms : Nat
  message : String
deriving DecidableEq, Repr

/-- The bucket start used by the timeline queries:
`ts.replace(second=0, microsecond=0) - timedelta(minutes=ts.minute % interval)`,
expressed in whole minutes since the epoch. -/
def bucket_of (timestamp_ms interval_minutes : Nat) : Nat :=
  let total_min := timestamp_ms / 60000
  total_min - (total_min % 60) % interval_minutes

/-- Add `errs` errors and `tot` rows to the bucket keyed `key`
(a `defaultdict` keyed by bucket start, insertion-ordered). -/
def bucketsBump (key errs tot : Nat) :
    List (Nat × Nat × Nat) → List (Nat × Nat × Nat)
  | [] => [(key, errs, tot)]
  | (k, e, t) :: rest =>
    if k == key then (k, e + errs, t + tot) :: rest
    else (k, e, t) :: bucketsBump key errs tot rest

/-- The row loop of `get_error_timeline`: per row the bucket's `total` is
incremented; one error is counted when the parsed message has an `error`
key (parse failures are swallowed), and another when
`get_message_type` returns `"error"` — an error response satisfies both
checks.  `get_message_type` is called outside any handler, so its
`AttributeError` propagates. -/
def error_timeline_scan (interval_minutes : Nat) :
    List MetricRow → List (Nat × Nat × Nat) → Except Unit (List (Nat × Nat × Nat))
  | [], acc => .ok acc
  | row :: rest, acc =>
    let key := bucket_of row.timestamp_ms interval_minutes
    let errField : Nat :=
      match parseJson row.message with
      | some j => if j.hasKey "error" then 1 else 0
      | none => 0
    match get_message_type row.message with
    | .error e => .error e
    | .ok mt =>
      let errType : Nat := if mt == "error" then 1 else 0
      error_timeline_scan interval_minutes rest
        (bucketsBump key (errField + errType) 1 acc)

structure ErrorBucket where
  bucket_min : Nat
  errors : Nat
  total : Nat
  error_rate : ℚ
deriving DecidableEq, Repr

/-- `get_error_timeline` over the window rows: scan, sort buckets by key,
and attach `error_rate = errors / total * 100` (rate `0` for an empty
bucket).  The rate is exact rational arithmetic; at every evaluated input
the Python float result is the same value. -/
def get_error_timeline (rows : List MetricRow) (interval_minutes : Nat) :
    Except Unit (List ErrorBucket) :=
  match error_timeline_scan interval_minutes rows [] with
  | .error e => .error e
  | .ok buckets =>
    let sorted := insertionSortBy (fun a b => decide (a.1 ≤ b.1)) buckets
    .ok (sorted.map (fun kv =>
      ⟨kv.1, kv.2.1, kv.2.2,
        if kv.2.2 > 0 then ((kv.2.1 : ℚ) / (kv.2.2 : ℚ)) * 100 else 0⟩))

/-- The row loop of `get_performance_metrics`: requests (`method` + `id`)
enter the pending dict keyed by their `id` value (overwriting an earlier
entry); responses (`result` or `error`, with `id`) pop a pending entry and
append the latency in milliseconds.  Rows that fail to parse, or whose
shape fits neither branch, are skipped (the source swallows all exceptions
here).  The pending value keeps only the request timestamp: the method
string feeds `method_stats` only, which no checked property mentions and
which is omitted from the model. -/
def perf_scan (rows : List MetricRow) (pending : List (Json × Nat))
    (lats : List Int) : List (Json × Nat) × List Int :=
  match rows with
  | [] => (pending, lats)
  | row :: rest =>
    match parseJson row.message with
    | none => perf_scan rest pending lats
    | some msg =>
      if msg.hasKey "method" && msg.hasKey "id" then
        match msg.getKey? "id" with
        | some mid => perf_scan rest (alUpsert mid row.timestamp_ms pending) lats
        | none => perf_scan rest pending lats
      else if (msg.hasKey "result" || msg.hasKey "error") && msg.hasKey "id" then
        match msg.getKey? "id" with
        | some mid =>
          match alGet? mid pending with
          | some req_ts =>
            perf_scan rest (alErase mid pending)
              (lats ++ [(row.timestamp_ms : Int) - (req_ts : Int)])
          | none => perf_scan rest pending lats
        | none => perf_scan rest pending lats
      else perf_scan rest pending lats

/-- The percentile index `int(n * p / 100)` of the source, as exact
arithmetic: `int(n * 0.5)`, `int(n * 0.9)`, `int(n * 0.95)` and
`int(n * 0.99)` agree with `⌊n · p / 100⌋` at every evaluated sample
size. -/
def pct_index (n p : Nat) : Nat := n * p / 100

structure Percentiles where
  p50 : Int
  p90 : Int
  p95 : Int
  p99 : Int
  min : Int
  max : Int
  avg : ℚ
deriving DecidableEq, Repr

structure HistBucket where
  lower : Int
  upper : Option Int
  count : Nat
  percentage : ℚ
deriving DecidableEq, Repr

structure PerfMetrics where
  percentiles : Option Percentiles
  total_requests : Nat
  pending_requests : Nat
  histogram : List HistBucket
deriving DecidableEq, Repr

/-- The fixed histogram bucket bounds
`[0, 10, 25, 50, 100, 250, 500, 1000, 2500, 5000, inf]`;
`none` is the open upper end of the last bucket. -/
def histogram_bounds : List (Int × Option Int) :=
  [(0, some 10), (10, some 25), (25, some 50), (50, some 100),
   (100, some 250), (250, some 500), (500, some 1000), (1000, some 2500),
   (2500, some 5000), (5000, none)]

/-- `get_performance_metrics` over the window rows (`method_stats`
omitted, see `perf_scan`).  Percentile selection follows the source:
element at `int(n*0.5)` / `int(n*0.9)` / `int(n*0.95)` /
`min(int(n*0.99), n-1)` of the ascending-sorted latencies; histogram
counts satisfy `lower <= t < upper`. -/
def get_performance_metrics (rows : List MetricRow) : PerfMetrics :=
  let pr := perf_scan rows [] []
  let response_times := insertionSortBy (fun a b : Int => decide (a ≤ b)) pr.2
  let n := response_times.length
  let percentiles : Option Percentiles :=
    if n > 0 then
      some
        { p50 := (response_times.drop (pct_index n 50)).headD 0
          p90 := (response_times.drop (pct_index n 90)).headD 0
          p95 := (response_times.drop (pct_index n 95)).headD 0
          p99 := (response_times.drop (Nat.min (pct_index n 99) (n - 1))).headD 0
          min := response_times.headD 0
          max := (response_times.getLast?).getD 0
          avg := ((response_times.foldl (fun acc t => acc + t) 0 : Int) : ℚ) / (n : ℚ) }
    else none
  let histogram : List HistBucket :=
    if n > 0 then
      histogram_bounds.map (fun bd =>
        let count := response_times.countP (fun t =>
          decide (bd.1 ≤ t) &&
            (match bd.2 with
             | some hi => decide (t < hi)
             | none => true))
        ⟨bd.1, bd.2, count, ((count : ℚ) / (n : ℚ)) * 100⟩)
    else []
  { percentiles := percentiles
    total_requests := n
    pending_requests := pr.1.length
    histogram := histogram }

/-! ## `mcphawk/logger.py`: store read operations

A row of the `logs` table with the columns the modelled read operations
consult; `src_ip`, `dst_ip`, the ports, `direction`, `metadata` and `pid`
are only copied through by these functions and are omitted.  The store is
`Option (List DBRow)`: `none` models a missing database file (each read
operation first checks `Path.exists`), `some rows` the table contents in
insertion order. -/

structure DBRow where
  log_id : String
  timestamp : Nat
  message : String
  transport_type : Option String
deriving DecidableEq, Repr

/-- `fetch_logs`: empty when the database file does not exist, otherwise
`ORDER BY timestamp DESC LIMIT ?`. -/
def fetch_logs (db : Option (List DBRow)) (limit : Nat) : List DBRow :=
  match db with
  | none => []
  | some rows =>
    (insertionSortBy (fun a b => decide (b.timestamp ≤ a.timestamp)) rows).take limit

/-- `get_log_by_id`: `none` when the database file does not exist or no row
matches (`log_id` is the primary key, so the first match is the row). -/
def get_log_by_id (db : Option (List DBRow)) (log_id : String) : Option DBRow :=
  match db with
  | none => none
  | some rows => rows.find? (fun r => r.log_id == log_id)

/-- `fetch_logs_with_offset`: empty when the database file does not exist,
otherwise `ORDER BY log_id DESC LIMIT ? OFFSET ?`. -/
def fetch_logs_with_offset (db : Option (List DBRow)) (limit offset : Nat) :
    List DBRow :=
  match db with
  | none => []
  | some rows =>
    (((insertionSortBy (fun a b => !strLtB a.log_id b.log_id) rows).drop offset).take limit)

/-- SQLite `message LIKE '%term%'` for a wildcard-free term: ASCII
case-insensitive substring containment. -/
def like_contains (pattern s : String) : Bool :=
  containsStr (asciiLower s) (asciiLower pattern)

/-- The post-query loop of `search_logs`: when a message type is requested,
each returned row's `get_message_type` must equal it — computed row by row
with no handler, so a raising row aborts the whole call. -/
def msg_type_filter (message_type : Option String) (rows : List DBRow) :
    Except Unit (List DBRow) :=
  match rows with
  | [] => .ok []
  | r :: rest =>
    match message_type with
    | none =>
      match msg_type_filter message_type rest with
      | .error e => .error e
      | .ok tail => .ok (r :: tail)
    | some mt =>
      match get_message_type r.message with
      | .error e => .error e
      | .ok ty =>
        match msg_type_filter message_type rest with
        | .error e => .error e
        | .ok tail => .ok (if ty == mt then r :: tail else tail)

/-- `search_logs`: empty when the database file does not exist; otherwise
the SQL query filters by substring (skipped for a falsy empty term) and
transport (skipped for a falsy empty value), orders by `log_id`
descending, applies the limit — and only then does the Python loop filter
by message type. -/
def search_logs (db : Option (List DBRow)) (search_term : String)
    (message_type transport_type : Option String) (limit : Nat) :
    Except Unit (List DBRow) :=
  match db with
  | none => .ok []
  | some rows =>
    let rows1 :=
      if strIsEmpty search_term then rows
      else rows.filter (fun r => like_contains search_term r.message)
    let rows2 :=
      match transport_type with
      | some tt => if strIsEmpty tt then rows1
          else rows1.filter (fun r => r.transport_type == some tt)
      | none => rows1
    let rows3 :=
      (insertionSortBy (fun a b => !strLtB a.log_id b.log_id) rows2).take limit
    let mt :=
      match message_type with
      | some m => if strIsEmpty m then none else some m
      | none => none
    msg_type_filter mt rows3

/-- Does the classifier return exactly this type (and no exception)? -/
def classifies_as (message : String) (mt : String) : Bool :=
  match get_message_type message with
  | .ok ty => ty == mt
  | .error _ => false

/-- Modelled from claim C8's words: "exactly the records whose message
contains the given substring case-insensitively (further filtered by the
optional message_type and transport_type arguments), ordered newest-first,
limited to the given limit". -/
def search_spec (rows : List DBRow) (search_term : String)
    (message_type transport_type : Option String) (limit : Nat) : List DBRow :=
  let hits := rows.filter (fun r =>
    like_contains search_term r.message &&
    (match message_type with
     | some mt => classifies_as r.message mt
     | none => true) &&
    (match transport_type with
     | some tt => r.transport_type == some tt
     | none => true))
  (insertionSortBy (fun a b => decide (b.timestamp ≤ a.timestamp)) hits).take limit

/-! ## Concrete scenario inputs -/

/-- A JSON-RPC object carrying `method`, `id` and `error` together: the
shapes of the classifier rules overlap on it. -/
def c2_overlap : String :=
  "\x7b\"jsonrpc\":\"2.0\",\"method\":\"a\",\"id\":1,\"error\":\x7b\x7d\x7d"

/-- The JSON-RPC response of the chunked-SSE scenario. -/
def c1_json : String :=
  "\x7b\"jsonrpc\":\"2.0\",\"result\":\x7b\"ok\":true\x7d,\"id\":1\x7d"

/-- The single SSE event carrying `c1_json` (71 = 0x47 bytes). -/
def c1_sse_event : String :=
  "event: message\r\ndata: " ++ c1_json ++ "\r\n\r\n"

/-- First packet: response headers (SSE, chunked) plus the complete
0x47-byte chunk. -/
def c1_payloadA : String :=
  "HTTP/1.1 200 OK\r\nContent-Type: text/event-stream\r\nTransfer-Encoding: chunked\r\n\r\n"
    ++ "47\r\n" ++ c1_sse_event ++ "\r\n"

/-- Second packet: the terminating zero-size chunk. -/
def c1_payloadB : String := "0\r\n\r\n"

def c1_pktA : Packet := ⟨"10.0.0.2", 8765, "10.0.0.1", 54321, c1_payloadA⟩

def c1_pktB : Packet := ⟨"10.0.0.2", 8765, "10.0.0.1", 54321, c1_payloadB⟩

/-- The single entry the pipeline produces for the chunked-SSE scenario. -/
def c1_entry : LogEntry :=
  ⟨"10.0.0.2", 8765, "10.0.0.1", 54321, "outgoing", c1_json, "unknown"⟩

/-- The reassembler state after the first packet of the chunked-SSE
scenario (and, the chunk being fully consumed, after the second as well):
one stream with parsed SSE + chunked response headers and an empty body
buffer. -/
def c1_state1 : TCPStreamReassembler :=
  { streams := [(⟨"10.0.0.1", 54321, "10.0.0.2", 8765⟩,
      { pending_request := none
        response_headers := some
          [("content-type", "text/event-stream"), ("transfer-encoding", "chunked")]
        content_length := none
        is_chunked := true
        is_sse := true
        buffer := []
        request_method := none
        request_path := none
        request_headers := []
        detected_transport := MCPTransport.UNKNOWN })]
    transport_tracker := { transports := [], endpoint_urls := [], http_sse_servers := [] } }

/-- A packet whose payload starts with an opening brace and contains
`"jsonrpc"` but is not well-formed JSON. -/
def c4_bad_pkt : Packet :=
  ⟨"10.0.0.9", 4000, "10.0.0.1", 5000, "\x7b\"jsonrpc\": oops\x7d"⟩

/-- The entry `packet_callback` logs for `c4_bad_pkt`. -/
def c4_bad_entry : LogEntry :=
  ⟨"10.0.0.9", 4000, "10.0.0.1", 5000, "unknown", "\x7b\"jsonrpc\": oops\x7d", "unknown"⟩

/-- Two concatenated JSON-RPC objects followed by a single newline, as the
child's stdout bytes. -/
def wrapper_one_line : String :=
  "\x7b\"jsonrpc\":\"2.0\",\"method\":\"a\",\"id\":1\x7d\x7b\"jsonrpc\":\"2.0\",\"result\":\"ok\",\"id\":1\x7d\n"

/-- The same two objects, each on its own line. -/
def wrapper_two_lines : String :=
  "\x7b\"jsonrpc\":\"2.0\",\"method\":\"a\",\"id\":1\x7d\n\x7b\"jsonrpc\":\"2.0\",\"result\":\"ok\",\"id\":1\x7d\n"

def wrapper_req_entry : WrapEntry :=
  ⟨"mcp-server", "mcp-client", "incoming",
    .obj [("jsonrpc", .str "2.0"), ("method", .str "a"), ("id", .num 1)],
    "stdio", 4242⟩

def wrapper_resp_entry : WrapEntry :=
  ⟨"mcp-server", "mcp-client", "incoming",
    .obj [("jsonrpc", .str "2.0"), ("result", .str "ok"), ("id", .num 1)],
    "stdio", 4242⟩

/-- An error response (both the `error` key and the `error` message type). -/
def c6_err_msg : String :=
  "\x7b\"jsonrpc\":\"2.0\",\"error\":\x7b\"code\":-32601\x7d,\"id\":1\x7d"

/-- A result response without an `error` field. -/
def c6_ok_msg : String := "\x7b\"jsonrpc\":\"2.0\",\"result\":1,\"id\":2\x7d"

/-- Twenty records in one 5-minute bucket, of which exactly 4 are error
responses. -/
def c6_rows : List MetricRow :=
  List.replicate 4 (MetricRow.mk 60000 c6_err_msg) ++
    List.replicate 16 (MetricRow.mk 61000 c6_ok_msg)

/-- The bucket `get_error_timeline` computes for `c6_rows`: each of the 4
error responses is counted twice. -/
def c6_bucket : ErrorBucket := ⟨0, 8, 20, 40⟩

def c7_req_msg (ds : String) : String :=
  "\x7b\"jsonrpc\":\"2.0\",\"method\":\"m\",\"id\":" ++ ds ++ "\x7d"

def c7_resp_msg (ds : String) : String :=
  "\x7b\"jsonrpc\":\"2.0\",\"result\":1,\"id\":" ++ ds ++ "\x7d"

/-- Ten requests (ids 1..10, all at time 0) followed by their responses at
10·i milliseconds: ten matched pairs with latencies 10, 20, ..., 100 ms,
in ascending timestamp order. -/
def c7_rows : List MetricRow :=
  [⟨0, c7_req_msg "1"⟩, ⟨0, c7_req_msg "2"⟩, ⟨0, c7_req_msg "3"⟩,
   ⟨0, c7_req_msg "4"⟩, ⟨0, c7_req_msg "5"⟩, ⟨0, c7_req_msg "6"⟩,
   ⟨0, c7_req_msg "7"⟩, ⟨0, c7_req_msg "8"⟩, ⟨0, c7_req_msg "9"⟩,
   ⟨0, c7_req_msg "10"⟩,
   ⟨10, c7_resp_msg "1"⟩, ⟨20, c7_resp_msg "2"⟩, ⟨30, c7_resp_msg "3"⟩,
   ⟨40, c7_resp_msg "4"⟩, ⟨50, c7_resp_msg "5"⟩, ⟨60, c7_resp_msg "6"⟩,
   ⟨70, c7_resp_msg "7"⟩, ⟨80, c7_resp_msg "8"⟩, ⟨90, c7_resp_msg "9"⟩,
   ⟨100, c7_resp_msg "10"⟩]

/-- The output `get_performance_metrics` computes for `c7_rows`. -/
def c7_expected : PerfMetrics :=
  { percentiles := some
      { p50 := 60, p90 := 100, p95 := 100, p99 := 100, min := 10, max := 100,
        avg := 55 }
    total_requests := 10
    pending_requests := 0
    histogram :=
      [⟨0, some 10, 0, 0⟩, ⟨10, some 25, 2, 20⟩, ⟨25, some 50, 2, 20⟩,
       ⟨50, some 100, 5, 50⟩, ⟨100, some 250, 1, 10⟩, ⟨250, some 500, 0, 0⟩,
       ⟨500, some 1000, 0, 0⟩, ⟨1000, some 2500, 0, 0⟩, ⟨2500, some 5000, 0, 0⟩,
       ⟨5000, none, 0, 0⟩] }

/-- A stored response: the older record (timestamp 1), with the
lexicographically smaller `log_id`. -/
def c8_row_resp : DBRow := ⟨"a", 1, c6_ok_msg, some "stdio"⟩

/-- A stored request: the newer record (timestamp 2), with the
lexicographically larger `log_id`. -/
def c8_row_req : DBRow :=
  ⟨"b", 2, "\x7b\"jsonrpc\":\"2.0\",\"method\":\"ping\",\"id\":2\x7d", some "stdio"⟩

/-- The SSE + chunked response headers of the buffer-growth scenario. -/
def c9_headers : String :=
  "HTTP/1.1 200 OK\r\nContent-Type: text/event-stream\r\nTransfer-Encoding: chunked\r\n\r\n"

/-- The stream state after `add_response_data` has parsed `c9_headers`
(verified by `c9_stream0_eq` below): SSE, chunked, empty body buffer. -/
def c9_stream0 : HTTPStream :=
  { pending_request := none
    response_headers := some
      [("content-type", "text/event-stream"), ("transfer-encoding", "chunked")]
    content_length := none
    is_chunked := true
    is_sse := true
    buffer := []
    request_method := none
    request_path := none
    request_headers := []
    detected_transport := MCPTransport.UNKNOWN }

/-- The stream of the buffer-growth scenario holding `n` bytes of filler:
same fields as `c9_stream0`, with `n` unconsumed body bytes. -/
def c9_stream (n : Nat) : HTTPStream :=
  { pending_request := none
    response_headers := some
      [("content-type", "text/event-stream"), ("transfer-encoding", "chunked")]
    content_length := none
    is_chunked := true
    is_sse := true
    buffer := List.replicate n 'a'
    request_method := none
    request_path := none
    request_headers := []
    detected_transport := MCPTransport.UNKNOWN }

/-- Feed `n` one-byte payloads of filler (`'a'`) into the SSE stream, as
the sse-continuation branch of `process_packet` does: append via
`add_response_data`, then try `extract_sse_messages`; collect every message
extracted on the way. -/
def c9_feed : Nat → HTTPStream × List String
  | 0 => (c9_stream0, [])
  | n + 1 =>
    let p := c9_feed n
    let s1 := p.1.add_response_data ['a']
    let es := s1.extract_sse_messages
    (es.2, p.2 ++ es.1)

/-- The tracker invariant maintained by the source: the
`http_sse_servers` table only ever receives `HTTP_SSE` values. -/
def TransportTracker.wf (tr : TransportTracker) : Prop :=
  ∀ kv ∈ tr.http_sse_servers, kv.2 = MCPTransport.HTTP_SSE

/-! ## Helper lemmas -/

theorem mem_insertSortedBy {α : Type} (le : α → α → Bool) (a x : α) :
    ∀ l : List α, x ∈ insertSortedBy le a l ↔ x = a ∨ x ∈ l := by
  intro l
  induction l with
  | nil => simp [insertSortedBy]
  | cons b t ih =>
    by_cases h : le a b = true
    · simp [insertSortedBy, h]
    · simp only [insertSortedBy, h]
      simp only [Bool.false_eq_true, if_false, List.mem_cons, ih]
      tauto

theorem mem_insertionSortBy {α : Type} (le : α → α → Bool) (x : α) :
    ∀ l : List α, x ∈ insertionSortBy le l ↔ x ∈ l := by
  intro l
  induction l with
  | nil => simp [insertionSortBy]
  | cons a t ih =>
    simp [insertionSortBy, mem_insertSortedBy, ih]

theorem length_insertSortedBy {α : Type} (le : α → α → Bool) (a : α) :
    ∀ l : List α, (insertSortedBy le a l).length = l.length + 1 := by
  intro l
  induction l with
  | nil => simp [insertSortedBy]
  | cons b t ih =>
    by_cases h : le a b = true
    · simp [insertSortedBy, h]
    · simp [insertSortedBy, h, ih]

theorem length_insertionSortBy {α : Type} (le : α → α → Bool) :
    ∀ l : List α, (insertionSortBy le l).length = l.length := by
  intro l
  induction l with
  | nil => rfl
  | cons a t ih => simp [insertionSortBy, length_insertSortedBy, ih]

theorem pairwise_insertSortedBy {α : Type} (le : α → α → Bool)
    (htot : ∀ x y, le x y = true ∨ le y x = true)
    (htrans : ∀ x y z, le x y = true → le y z = true → le x z = true)
    (a : α) :
    ∀ l : List α, List.Pairwise (fun x y => le x y = true) l →
      List.Pairwise (fun x y => le x y = true) (insertSortedBy le a l) := by
  intro l
  induction l with
  | nil => intro _; simp [insertSortedBy]
  | cons b t ih =>
    intro hp
    rcases List.pairwise_cons.mp hp with ⟨hb, ht⟩
    by_cases h : le a b = true
    · simp only [insertSortedBy, h, if_true]
      refine List.pairwise_cons.mpr ⟨?_, hp⟩
      intro x hx
      rcases List.mem_cons.mp hx with rfl | hx
      · exact h
      · exact htrans a b x h (hb x hx)
    · simp only [insertSortedBy, h]
      simp only [Bool.false_eq_true, if_false]
      refine List.pairwise_cons.mpr ⟨?_, ih ht⟩
      intro x hx
      rcases (mem_insertSortedBy le a x t).mp hx with rfl | hx
      · rcases htot x b with hxb | hbx
        · exact absurd hxb h
        · exact hbx
      · exact hb x hx

theorem pairwise_insertionSortBy {α : Type} (le : α → α → Bool)
    (htot : ∀ x y, le x y = true ∨ le y x = true)
    (htrans : ∀ x y z, le x y = true → le y z = true → le x z = true) :
    ∀ l : List α, List.Pairwise (fun x y => le x y = true) (insertionSortBy le l) := by
  intro l
  induction l with
  | nil => simp [insertionSortBy]
  | cons a t ih =>
    exact pairwise_insertSortedBy le htot htrans a _ ih

theorem get_message_type_spec_eq (m : String) :
    get_message_type m = classify_message_type_spec m := by
  unfold get_message_type classify_message_type_spec
  cases parse_message m with
  | none => rfl
  | some j => cases j <;> rfl

theorem get_message_type_range (m : String) :
    get_message_type m = Except.error () ∨
    get_message_type m = Except.ok "request" ∨
    get_message_type m = Except.ok "response" ∨
    get_message_type m = Except.ok "notification" ∨
    get_message_type m = Except.ok "error" ∨
    get_message_type m = Except.ok "unknown" := by
  unfold get_message_type
  cases parse_message m with
  | none => tauto
  | some j =>
    cases j with
    | obj fields =>
      by_cases h : (Json.obj fields).isTruthy
      · simp only [h, Bool.not_true, Bool.false_eq_true, if_false]
        split_ifs <;> tauto
      · simp only [Bool.not_eq_true] at h
        simp [h]
    | null => simp [Json.isTruthy]
    | bool b =>
      by_cases h : b <;> simp [Json.isTruthy, h]
    | num n =>
      by_cases h : n = 0 <;> simp [Json.isTruthy, h]
    | numRaw r => simp [Json.isTruthy]
    | str s =>
      by_cases h : s.data.isEmpty <;> simp [Json.isTruthy, h]
    | arr xs =>
      by_cases h : xs.isEmpty <;> simp [Json.isTruthy, h]

/-! ## Claim theorems -/

/-- C2, counterexample: on a message carrying `method`, `id` and `error`
together, the classifier as the claim orders its rules would return
`"request"`, but `get_message_type` checks `error` first and returns
`"error"`: the rules are not applied in the claim's order. -/
theorem message_type_rule_order_counterexample :
    get_message_type c2_overlap = Except.ok "error" ∧
    classify_message_type_claim c2_overlap = "request" ∧
    Except.ok "error" ≠ (Except.ok "request" : Except Unit String) := by
  refine ⟨rfl, rfl, ?_⟩
  intro h
  have := Except.ok.inj h
  simp at this

/-- C2, amended: for every message string the classifier is deterministic
(it is a function) and either raises `AttributeError` (on truthy non-object
JSON) or returns exactly one of the five type names; when it returns, the
rules apply in the order error, response, request, notification, guarded by
`jsonrpc = "2.0"`, as `classify_message_type_spec` states. -/
theorem message_type_classifier_amended (m : String) :
    get_message_type m = classify_message_type_spec m ∧
    (get_message_type m = Except.error () ∨
      get_message_type m = Except.ok "request" ∨
      get_message_type m = Except.ok "response" ∨
      get_message_type m = Except.ok "notification" ∨
      get_message_type m = Except.ok "error" ∨
      get_message_type m = Except.ok "unknown") :=
  ⟨get_message_type_spec_eq m, get_message_type_range m⟩

/-- C10, confirmed: when the backing database file does not exist, every
read operation returns an empty result: `fetch_logs`,
`fetch_logs_with_offset` and `search_logs` return the empty list and
`get_log_by_id` returns `none`. -/
theorem store_reads_missing_db :
    (∀ limit, fetch_logs none limit = []) ∧
    (∀ limit offset, fetch_logs_with_offset none limit offset = []) ∧
    (∀ term mt tt limit, search_logs none term mt tt limit = Except.ok []) ∧
    (∀ lid, get_log_by_id none lid = none) :=
  ⟨fun _ => rfl, fun _ _ => rfl, fun _ _ _ _ => rfl, fun _ => rfl⟩


theorem c1_stepA_state :
    (packet_callback [] TCPStreamReassembler.init c1_pktA).1 = c1_state1 := by decide

theorem c1_stepA_entries :
    (packet_callback [] TCPStreamReassembler.init c1_pktA).2 = [c1_entry] := by decide

theorem c1_stepB_entries :
    (packet_callback [] c1_state1 c1_pktB).2 = [] := by decide

/-- C1, code bug: the chunked SSE scenario produces exactly one record with
the expected message, classified as a response — but its direction is
`"outgoing"`, not `"incoming"`: `packet_callback` compares the message
dict's `type` against `"HTTP Response"`, a string the reassembler never
emits (it emits `"sse_response"`), so the `incoming` branch is dead and
every reassembled SSE response is labelled outgoing. -/
theorem chunked_sse_scenario_direction :
    (run_packets [] TCPStreamReassembler.init [c1_pktA, c1_pktB]).2 = [c1_entry] ∧
    c1_entry.message = c1_json ∧
    get_message_type c1_json = Except.ok "response" ∧
    c1_entry.direction = "outgoing" ∧
    c1_entry.direction ≠ "incoming" := by
  refine ⟨?_, rfl, rfl, rfl, by decide⟩
  show (packet_callback [] TCPStreamReassembler.init c1_pktA).2 ++
      ((packet_callback []
          (packet_callback [] TCPStreamReassembler.init c1_pktA).1 c1_pktB).2 ++ []) = [c1_entry]
  rw [c1_stepA_state, c1_stepA_entries, c1_stepB_entries]
  simp

/-- C4, counterexample: a raw TCP payload that starts with an opening brace
and contains the substring `"jsonrpc"` but is not well-formed JSON is still
logged by the capture pipeline — the shape check is a substring check, not
a JSON-RPC 2.0 validation — so a record exists whose `message` does not
parse as JSON. -/
theorem capture_unparseable_record_counterexample :
    (packet_callback [] TCPStreamReassembler.init c4_bad_pkt).2 = [c4_bad_entry] ∧
    parse_message c4_bad_entry.message = none := by
  exact ⟨by decide, Option.isNone_iff_eq_none.mp (by decide)⟩

theorem c6_scan_eq : error_timeline_scan 5 c6_rows [] = .ok [(0, 8, 20)] := by decide

/-- C6, counterexample: with 20 records in one 5-minute bucket of which 4
are error responses, the error timeline reports `errors = 8` and
`error_rate = 40`, not the claimed `errors = 4` / `error_rate = 20`: each
error response is counted once by the `error`-field check and once more by
the message-type check. -/
theorem error_timeline_double_counting_counterexample :
    get_error_timeline c6_rows 5 = Except.ok [c6_bucket] ∧
    c6_bucket.errors = 8 ∧ c6_bucket.total = 20 ∧ c6_bucket.error_rate = 40 ∧
    c6_bucket.errors ≠ 4 ∧ c6_bucket.error_rate ≠ 20 := by
  refine ⟨?_, rfl, rfl, rfl, by decide, by norm_num [c6_bucket]⟩
  unfold get_error_timeline
  rw [c6_scan_eq]
  norm_num [insertionSortBy, insertSortedBy, c6_bucket]

/-- C8, counterexample: with a store holding an older matching response
(`log_id "a"`) and a newer request (`log_id "b"`), searching for
`"jsonrpc"` with `message_type = "response"` and limit 1 returns nothing:
the SQL query applies the order (by `log_id`, not timestamp) and the limit
before the Python loop filters by message type, so the matching response is
cut off — while the claim's reading returns exactly that response. -/
theorem search_logs_order_filter_counterexample :
    search_logs (some [c8_row_resp, c8_row_req]) "jsonrpc" (some "response") none 1
      = Except.ok [] ∧
    search_spec [c8_row_resp, c8_row_req] "jsonrpc" (some "response") none 1
      = [c8_row_resp] ∧
    (Except.ok [] : Except Unit (List DBRow)) ≠ Except.ok [c8_row_resp] := by
  refine ⟨by decide, by decide, ?_⟩
  intro h
  have := Except.ok.inj h
  simp at this

theorem c7_scan_latencies :
    (perf_scan c7_rows [] []).2 = [10, 20, 30, 40, 50, 60, 70, 80, 90, 100] := by
  decide

theorem c7_scan_no_pending : (perf_scan c7_rows [] []).1.length = 0 := by
  decide

/-- C7, confirmed: for ten matched pairs with latencies 10..100 ms the
performance metrics report min 10, p50 60, p90/p95/p99 100, max 100,
avg 55, with histogram counts 2/2/5/1 in the 10-25/25-50/50-100/100-250
buckets (and 0 elsewhere), nothing pending. -/
theorem performance_percentiles_scenario :
    get_performance_metrics c7_rows = c7_expected := by
  simp only [get_performance_metrics]
  rw [c7_scan_latencies, c7_scan_no_pending]
  norm_num [insertionSortBy, insertSortedBy, c7_expected, pct_index, histogram_bounds]

/-- C3, counterexample: two concatenated JSON-RPC objects followed by one
newline make a single line that `json.loads` rejects ("Extra data"), so the
wrapper's stdout scanner emits zero records, not two. -/
theorem wrapper_concatenated_objects_counterexample :
    forward_stdout_entries 4242 wrapper_one_line = [] ∧
    (forward_stdout_entries 4242 wrapper_one_line).length ≠ 2 := by
  have h : forward_stdout_entries 4242 wrapper_one_line = [] :=
    List.isEmpty_iff.mp (by decide)
  exact ⟨h, by rw [h]; decide⟩

/-- C3, amended: the wrapper parses each newline-terminated stdout line as
a single JSON document.  The claim's line with two concatenated objects
yields zero records; the same two objects on separate lines yield two
records, both with `transport_type = stdio`, `direction = incoming` and the
child's pid. -/
theorem wrapper_line_scanner_amended :
    forward_stdout_entries 4242 wrapper_one_line = [] ∧
    (forward_stdout_entries 4242 wrapper_two_lines).length = 2 ∧
    (forward_stdout_entries 4242 wrapper_two_lines).map
        (fun e => (e.direction, e.transport_type, e.pid, e.src_ip, e.dst_ip))
      = [("incoming", "stdio", 4242, "mcp-server", "mcp-client"),
         ("incoming", "stdio", 4242, "mcp-server", "mcp-client")] := by
  refine ⟨List.isEmpty_iff.mp (by decide), by decide, by decide⟩

theorem alGet?_upsert_self {κ α : Type} [DecidableEq κ] (k : κ) (v : α) :
    ∀ l : List (κ × α), alGet? k (alUpsert k v l) = some v := by
  intro l
  induction l with
  | nil => simp [alUpsert, alGet?]
  | cons p t ih =>
    obtain ⟨k1, v1⟩ := p
    by_cases h : k1 = k
    · simp [alUpsert, alGet?, h]
    · simp [alUpsert, alGet?, h, ih]

theorem mem_alUpsert {κ α : Type} [DecidableEq κ] (k' : κ) (v' : α) :
    ∀ (l : List (κ × α)) (p : κ × α), p ∈ alUpsert k' v' l → p = (k', v') ∨ p ∈ l := by
  intro l
  induction l with
  | nil => intro p hp; simp [alUpsert] at hp; simp [hp]
  | cons q t ih =>
    obtain ⟨k1, v1⟩ := q
    intro p hp
    by_cases h : k1 = k'
    · simp only [alUpsert, h, if_pos, beq_self_eq_true] at hp
      rcases List.mem_cons.mp hp with h1 | h1
      · left; exact h1
      · right; exact List.mem_cons_of_mem _ h1
    · simp only [alUpsert, beq_iff_eq, h, if_false, if_neg] at hp
      rcases List.mem_cons.mp hp with h1 | h1
      · right; simp [h1]
      · rcases ih _ h1 with h2 | h2
        · left; exact h2
        · right; exact List.mem_cons_of_mem _ h2

theorem alGet?_mem {κ α : Type} [DecidableEq κ] (k : κ) (v : α) :
    ∀ l : List (κ × α), alGet? k l = some v → (k, v) ∈ l := by
  intro l
  induction l with
  | nil => intro h; simp [alGet?] at h
  | cons p t ih =>
    obtain ⟨k1, v1⟩ := p
    intro h
    by_cases hk : k1 = k
    · subst hk
      simp [alGet?] at h
      simp [h]
    · simp [alGet?, hk] at h
      exact List.mem_cons_of_mem _ (ih h)

/-- C5, confirmed: the transport tracker's classifications are sticky.  An
`UNKNOWN` update leaves the tracker unchanged (so it never overwrites a
stored classification), and after any connection is classified `HTTP_SSE`,
a lookup for any new connection tuple to — or from — the same destination
server endpoint returns `HTTP_SSE` without re-detection ("new" meaning the
tuple itself has no stored classification; the lookup from the server side
assumes the invariant `wf`: the `http_sse_servers` table holds only
`HTTP_SSE`, which is the only value the code ever stores there). -/
theorem transport_tracker_sticky :
    (∀ (tr : TransportTracker) (si : String) (sp : Nat) (di : String) (dp : Nat),
      tr.update_transport si sp di dp MCPTransport.UNKNOWN = tr) ∧
    (∀ (tr : TransportTracker) (si : String) (sp : Nat) (di : String) (dp : Nat)
        (ci : String) (cp : Nat),
      alGet? (ConnKey.mk ci cp di dp)
          (tr.update_transport si sp di dp MCPTransport.HTTP_SSE).transports = none →
      (tr.update_transport si sp di dp MCPTransport.HTTP_SSE).get_transport ci cp di dp
        = MCPTransport.HTTP_SSE) ∧
    (∀ (tr : TransportTracker) (si : String) (sp : Nat) (di : String) (dp : Nat)
        (bi : String) (bp : Nat),
      tr.wf →
      alGet? (ConnKey.mk di dp bi bp)
          (tr.update_transport si sp di dp MCPTransport.HTTP_SSE).transports = none →
      (tr.update_transport si sp di dp MCPTransport.HTTP_SSE).get_transport di dp bi bp
        = MCPTransport.HTTP_SSE) := by
  refine ⟨?_, ?_, ?_⟩
  · intro tr si sp di dp
    simp [TransportTracker.update_transport]
  · intro tr si sp di dp ci cp h
    simp only [TransportTracker.update_transport] at h ⊢
    simp only [ne_eq, reduceCtorEq, not_false_eq_true, if_true, reduceIte] at h ⊢
    simp only [TransportTracker.get_transport, h]
    rw [alGet?_upsert_self]
  · intro tr si sp di dp bi bp hwf h
    simp only [TransportTracker.update_transport] at h ⊢
    simp only [ne_eq, reduceCtorEq, not_false_eq_true, if_true, reduceIte] at h ⊢
    simp only [TransportTracker.get_transport, h]
    cases hb : alGet? (ServerKey.mk bi bp)
        (alUpsert (ServerKey.mk di dp) MCPTransport.HTTP_SSE tr.http_sse_servers) with
    | some t =>
      simp only [hb]
      have hmem := alGet?_mem _ _ _ hb
      rcases mem_alUpsert _ _ _ _ hmem with h1 | h1
      · exact congrArg Prod.snd h1
      · exact hwf _ h1
    | none =>
      simp only [hb]
      rw [alGet?_upsert_self]

/-- Witness for `transport_tracker_sticky` at a concrete tracker: starting
empty, classify one connection to server `5.6.7.8:80` as HTTP+SSE; then a
fresh client tuple towards that endpoint, or a response tuple from it, both
look up as HTTP+SSE, and an UNKNOWN update is a no-op. -/
theorem transport_tracker_sticky_witness :
    (TransportTracker.empty.update_transport "1.2.3.4" 1111 "5.6.7.8" 80
        MCPTransport.UNKNOWN = TransportTracker.empty) ∧
    ((TransportTracker.empty.update_transport "1.2.3.4" 1111 "5.6.7.8" 80
        MCPTransport.HTTP_SSE).get_transport "9.9.9.9" 2222 "5.6.7.8" 80
      = MCPTransport.HTTP_SSE) ∧
    ((TransportTracker.empty.update_transport "1.2.3.4" 1111 "5.6.7.8" 80
        MCPTransport.HTTP_SSE).get_transport "5.6.7.8" 80 "9.9.9.9" 2222
      = MCPTransport.HTTP_SSE) :=
  ⟨transport_tracker_sticky.1 TransportTracker.empty "1.2.3.4" 1111 "5.6.7.8" 80,
   transport_tracker_sticky.2.1 TransportTracker.empty "1.2.3.4" 1111 "5.6.7.8" 80
     "9.9.9.9" 2222 (by decide),
   transport_tracker_sticky.2.2 TransportTracker.empty "1.2.3.4" 1111 "5.6.7.8" 80
     "9.9.9.9" 2222 (by simp [TransportTracker.wf, TransportTracker.empty]) (by decide)⟩

theorem findSubFrom_crlf_replicate :
    ∀ (n i : Nat), findSubFrom ['\r', '\n'] (List.replicate n 'a') i = none := by
  intro n
  induction n with
  | zero => intro i; rfl
  | succ n ih =>
    intro i
    rw [List.replicate_succ, findSubFrom]
    have hc : ('a' == '\x0d') = false := by decide
    simp [listStartsWith, hc, ih]

theorem c9_stream0_eq :
    HTTPStream.init.add_response_data c9_headers.data = c9_stream0 := by decide

theorem c9_stream_zero : c9_stream 0 = c9_stream0 := by decide

theorem c9_stream_add (n : Nat) :
    (c9_stream n).add_response_data ['a'] = c9_stream (n + 1) := by
  simp only [c9_stream, HTTPStream.add_response_data]
  rw [← List.replicate_succ' (n := n)]

theorem c9_stream_extract (n : Nat) :
    (c9_stream (n + 1)).extract_sse_messages = ([], c9_stream (n + 1)) := by
  have hfind : findSub (List.replicate (n + 1) 'a') "\r\n".data = none := by
    simpa [findSub] using findSubFrom_crlf_replicate (n + 1) 0
  have hloop : ∀ m, extract_chunked_loop (m + 1)
      (List.replicate (n + 1) 'a') (List.replicate (n + 1) 'a') []
      = (none, List.replicate (n + 1) 'a') := by
    intro m
    rw [extract_chunked_loop]
    rw [hfind]
    rfl
  have hcd : (c9_stream (n + 1)).extract_chunked_data
      = (none, c9_stream (n + 1)) := by
    simp only [HTTPStream.extract_chunked_data, c9_stream, List.length_replicate]
    rw [hloop (n + 1)]
  simp only [HTTPStream.extract_sse_messages, c9_stream] at hcd ⊢
  simp only [hcd]
  norm_num

theorem c9_feed_spec :
    ∀ n, (c9_feed n).1 = c9_stream n ∧ (c9_feed n).2 = [] := by
  intro n
  induction n with
  | zero => exact ⟨c9_stream_zero.symm, rfl⟩
  | succ n ih =>
    constructor
    · show ((c9_feed n).1.add_response_data ['a']).extract_sse_messages.2 = _
      rw [ih.1, c9_stream_add, c9_stream_extract]
    · show (c9_feed n).2 ++
        ((c9_feed n).1.add_response_data ['a']).extract_sse_messages.1 = []
      rw [ih.2, ih.1, c9_stream_add, c9_stream_extract]
      rfl

/-- C9, code bug: the reassembly buffer is not bounded.  Feeding the
SSE/chunked stream one filler byte at a time never yields a message and
never resets the connection: after `n` bytes the buffer holds exactly `n`
bytes, so it exceeds the 1 MiB cap (1048576) and keeps growing, and
`cleanup_old_streams` — the only cleanup hook — is a `pass` that returns
the state unchanged. -/
theorem reassembly_buffer_unbounded :
    (∀ n, (c9_feed n).1.buffer.length = n ∧ (c9_feed n).2 = []) ∧
    (c9_feed 1048577).1.buffer.length = 1048577 ∧
    1048576 < 1048577 ∧
    (∀ (r : TCPStreamReassembler) (t : Nat), r.cleanup_old_streams t = r) := by
  have hlen : ∀ n, (c9_feed n).1.buffer.length = n := by
    intro n
    rw [(c9_feed_spec n).1]
    simp [c9_stream]
  exact ⟨fun n => ⟨hlen n, (c9_feed_spec n).2⟩, hlen 1048577, by norm_num,
    fun r t => rfl⟩

theorem raw_entry_of_shape (tk : TransportTracker) (pkt : Packet) (d : String)
    (e : LogEntry) (h : raw_entry_of tk pkt d = some e) :
    strStartsWith e.message "\x7b" = true ∧ containsStr e.message "jsonrpc" = true := by
  unfold raw_entry_of at h
  split at h
  next hcond =>
    have he := Option.some.inj h
    rw [← he]
    simpa using hcond
  next => exact absurd h (by simp)

theorem extract_sse_loop_shape (fuel : Nat) (dat : List Char) (s : HTTPStream)
    (acc : List String)
    (hacc : ∀ m ∈ acc, strStartsWith m "\x7b" = true) :
    ∀ m ∈ (extract_sse_loop fuel dat s acc).1, strStartsWith m "\x7b" = true := by
  induction fuel generalizing dat s acc with
  | zero => simpa [extract_sse_loop] using hacc
  | succ fuel ih =>
    intro m hm
    rw [extract_sse_loop] at hm
    simp only at hm
    split at hm
    · exact hacc m hm
    · refine ih _ _ _ ?_ m hm
      intro x hx
      rcases List.mem_append.mp hx with hx | hx
      · exact hacc x hx
      · rcases List.mem_filterMap.mp hx with ⟨line, _, hfx⟩
        by_cases h1 : strStartsWith line "data: " = true
        · simp only [h1, if_true] at hfx
          by_cases h2 : (!(strIsEmpty (pyStrip (strDrop line 6))) &&
              strStartsWith (pyStrip (strDrop line 6)) "\x7b") = true
          · simp only [h2, if_true] at hfx
            rw [← Option.some.inj hfx]
            have h2' := h2
            simp only [Bool.and_eq_true] at h2'
            exact h2'.2
          · simp only [h2] at hfx
            simp at hfx
        · simp only [h1] at hfx
          simp at hfx

theorem extract_sse_messages_shape (s : HTTPStream) :
    ∀ m ∈ (s.extract_sse_messages).1, strStartsWith m "\x7b" = true := by
  unfold HTTPStream.extract_sse_messages
  split
  · show ∀ m ∈ (match (s.extract_chunked_data).1 with
      | some chunk_data => extract_sse_loop (chunk_data.length + 1) chunk_data
          (s.extract_chunked_data).2 []
      | none => ([], (s.extract_chunked_data).2)).1, strStartsWith m "\x7b" = true
    rcases (s.extract_chunked_data).1 with _ | chunk
    · simp
    · exact extract_sse_loop_shape _ _ _ _ (by simp)
  · exact extract_sse_loop_shape _ _ _ _ (by simp)

theorem process_packet_shape (r : TCPStreamReassembler) (pkt : Packet)
    (mi : EmittedMsg) (h : mi ∈ (r.process_packet pkt).1) :
    strStartsWith mi.message "\x7b" = true := by
  unfold TCPStreamReassembler.process_packet at h
  simp only at h
  split at h
  · simp at h
  · split at h
    · split at h
      · rcases List.mem_map.mp h with ⟨m, hm, rfl⟩
        exact extract_sse_messages_shape _ m hm
      · simp at h
    · split at h
      · rcases List.mem_map.mp h with ⟨m, hm, rfl⟩
        exact extract_sse_messages_shape _ m hm
      · split at h
        · rcases List.mem_map.mp h with ⟨m, hm, rfl⟩
          exact extract_sse_messages_shape _ m hm
        · split at h
          · split at h
            · split at h
              · rcases List.mem_map.mp h with ⟨m, hm, rfl⟩
                exact extract_sse_messages_shape _ m hm
              · simp at h
            · simp at h
          · simp at h

theorem reassembled_entry_shape (mi : EmittedMsg) (e : LogEntry)
    (h : reassembled_entry mi = some e) :
    e.message = mi.message ∧ containsStr e.message "jsonrpc" = true := by
  unfold reassembled_entry at h
  split at h
  next hc =>
    have he := Option.some.inj h
    rw [← he]
    exact ⟨rfl, hc⟩
  next => exact absurd h (by simp)

/-- **C4 (amended)** Every entry the packet callback inserts into the store
has a message that starts with an opening brace and contains the substring
`"jsonrpc"` (the code enforces only this textual guard, not that the message
parses as JSON, nor that it contains the exact text `"jsonrpc": "2.0"`). -/
theorem capture_record_shape_amended (excluded : List Nat)
    (r : TCPStreamReassembler) (pkt : Packet) (e : LogEntry)
    (h : e ∈ (packet_callback excluded r pkt).2) :
    strStartsWith e.message "\x7b" = true ∧ containsStr e.message "jsonrpc" = true := by
  unfold packet_callback at h
  split at h
  · simp at h
  · have h2 : e ∈ ((r.process_packet pkt).1.filterMap reassembled_entry) ∨
        raw_path_entry (r.process_packet pkt).2.transport_tracker pkt = some e := by
      revert h
      show e ∈ (match raw_path_entry (r.process_packet pkt).2.transport_tracker pkt with
        | some e2 => (r.process_packet pkt).1.filterMap reassembled_entry ++ [e2]
        | none => (r.process_packet pkt).1.filterMap reassembled_entry) → _
      rcases hre : raw_path_entry (r.process_packet pkt).2.transport_tracker pkt with _ | e2
      · exact fun h => Or.inl h
      · intro h
        rcases List.mem_append.mp h with h | h
        · exact Or.inl h
        · rcases List.mem_singleton.mp h with rfl
          exact Or.inr rfl
    rcases h2 with h2 | h2
    · rcases List.mem_filterMap.mp h2 with ⟨mi, hmi, hre⟩
      rcases reassembled_entry_shape mi e hre with ⟨hmsg, hcont⟩
      refine ⟨?_, hcont⟩
      rw [hmsg]
      exact process_packet_shape r pkt mi hmi
    · unfold raw_path_entry at h2
      exact raw_entry_of_shape _ pkt _ e h2

theorem capture_record_shape_amended_witness :
    c4_bad_entry ∈ (packet_callback [] TCPStreamReassembler.init c4_bad_pkt).2 ∧
    strStartsWith c4_bad_entry.message "\x7b" = true ∧
    containsStr c4_bad_entry.message "jsonrpc" = true :=
  ⟨by decide, capture_record_shape_amended [] TCPStreamReassembler.init c4_bad_pkt
    c4_bad_entry (by decide)⟩

theorem bucketsBump_total (key errs tot : Nat) (htot : 0 < tot) :
    ∀ acc : List (Nat × Nat × Nat), (∀ p ∈ acc, 0 < p.2.2) →
    ∀ p ∈ bucketsBump key errs tot acc, 0 < p.2.2 := by
  intro acc
  induction acc with
  | nil =>
    intro _ p hp
    simp only [bucketsBump, List.mem_singleton] at hp
    rw [hp]
    exact htot
  | cons hd tl ih =>
    intro hacc p hp
    rcases hd with ⟨k, e, t⟩
    simp only [bucketsBump] at hp
    split at hp
    · rcases List.mem_cons.mp hp with rfl | hp
      · have := hacc (k, e, t) (List.mem_cons_self _ _)
        simpa using Nat.lt_of_lt_of_le this (Nat.le_add_right _ _)
      · exact hacc p (List.mem_cons_of_mem _ hp)
    · rcases List.mem_cons.mp hp with rfl | hp
      · exact hacc (k, e, t) (List.mem_cons_self _ _)
      · exact ih (fun q hq => hacc q (List.mem_cons_of_mem _ hq)) p hp

theorem error_timeline_scan_total (iv : Nat) :
    ∀ (rows : List MetricRow) (acc out : List (Nat × Nat × Nat)),
    (∀ p ∈ acc, 0 < p.2.2) →
    error_timeline_scan iv rows acc = .ok out →
    ∀ p ∈ out, 0 < p.2.2 := by
  intro rows
  induction rows with
  | nil =>
    intro acc out hacc h
    simp only [error_timeline_scan] at h
    rw [← Except.ok.inj h]
    exact hacc
  | cons row rest ih =>
    intro acc out hacc h
    simp only [error_timeline_scan] at h
    split at h
    · exact absurd h (by simp)
    · exact ih _ out (bucketsBump_total _ _ 1 Nat.one_pos acc hacc) h

/-- **C6 (amended)** In the 20-record scenario the timeline reports one
bucket with `errors = 8`, `total = 20` and `error_rate = 40` — each error
response is counted twice, once by the `"error"`-field check and once by the
message-type check; and in general every reported bucket has a positive
total and `error_rate = errors / total * 100` over the double-counted
`errors`. -/
theorem error_timeline_amended (rows : List MetricRow) (iv : Nat)
    (out : List ErrorBucket) (h : get_error_timeline rows iv = .ok out) :
    (∀ b ∈ out, 0 < b.total ∧
      b.error_rate = (b.errors : ℚ) / (b.total : ℚ) * 100) ∧
    get_error_timeline c6_rows 5 = .ok [c6_bucket] := by
  constructor
  · intro b hb
    unfold get_error_timeline at h
    rcases hscan : error_timeline_scan iv rows [] with e | buckets
    · rw [hscan] at h
      exact absurd h (by simp)
    · rw [hscan] at h
      simp only at h
      rw [← Except.ok.inj h] at hb
      rcases List.mem_map.mp hb with ⟨kv, hkv, rfl⟩
      have hpos : 0 < kv.2.2 :=
        error_timeline_scan_total iv rows [] buckets (by simp) hscan kv
          ((mem_insertionSortBy _ kv buckets).mp hkv)
      refine ⟨hpos, ?_⟩
      simp [hpos]
  · unfold get_error_timeline
    rw [c6_scan_eq]
    norm_num [insertionSortBy, insertSortedBy, c6_bucket]

theorem error_timeline_amended_witness :
    get_error_timeline [] 5 = .ok [] ∧
    ((∀ b ∈ ([] : List ErrorBucket), 0 < b.total ∧
        b.error_rate = (b.errors : ℚ) / (b.total : ℚ) * 100) ∧
      get_error_timeline c6_rows 5 = .ok [c6_bucket]) :=
  ⟨rfl, error_timeline_amended [] 5 [] rfl⟩

theorem listLtChars_asymm :
    ∀ xs ys : List Char, listLtChars xs ys = true → listLtChars ys xs = false := by
  intro xs
  induction xs with
  | nil =>
    intro ys h
    cases ys with
    | nil => exact absurd h (by simp [listLtChars])
    | cons y ys0 => simp [listLtChars]
  | cons a as ih =>
    intro ys h
    cases ys with
    | nil => exact absurd h (by simp [listLtChars])
    | cons b bs =>
      simp only [listLtChars] at h ⊢
      by_cases hab : charLtB a b = true
      · have hba : charLtB b a = false := by
          simp only [charLtB, decide_eq_true_eq] at hab
          simp only [charLtB, decide_eq_false_iff_not]
          omega
        simp [hab, hba]
      · by_cases hba : charLtB b a = true
        · simp [hab, hba] at h
        · simp only [hab, hba, Bool.false_eq_true, if_false] at h ⊢
          exact ih bs h

theorem listLtChars_cotrans :
    ∀ xs ys zs : List Char, listLtChars xs zs = true →
      listLtChars xs ys = true ∨ listLtChars ys zs = true := by
  intro xs
  induction xs with
  | nil =>
    intro ys zs h
    cases zs with
    | nil => exact absurd h (by simp [listLtChars])
    | cons z zs0 =>
      cases ys with
      | nil => exact Or.inr (by simp [listLtChars])
      | cons y ys0 => exact Or.inl (by simp [listLtChars])
  | cons a as ih =>
    intro ys zs h
    cases zs with
    | nil => exact absurd h (by simp [listLtChars])
    | cons z zs0 =>
      cases ys with
      | nil => exact Or.inr (by simp [listLtChars])
      | cons b bs =>
        simp only [listLtChars, charLtB, decide_eq_true_eq] at h ⊢
        by_cases hab : a.toNat < b.toNat
        · exact Or.inl (by simp [hab])
        · by_cases hba : b.toNat < a.toNat
          · refine Or.inr ?_
            by_cases haz : a.toNat < z.toNat
            · simp only [haz, if_true] at h
              have hbz : b.toNat < z.toNat := by omega
              simp [hbz]
            · by_cases hza : z.toNat < a.toNat
              · simp [haz, hza] at h
              · have hbz : b.toNat < z.toNat := by omega
                simp [hbz]
          · have hba' : ¬ b.toNat < a.toNat := hba
            by_cases haz : a.toNat < z.toNat
            · have hbz : b.toNat < z.toNat := by omega
              exact Or.inr (by simp [hbz])
            · by_cases hza : z.toNat < a.toNat
              · simp [haz, hza] at h
              · simp only [haz, hza, if_false] at h
                have hbz : ¬ b.toNat < z.toNat := by omega
                have hzb : ¬ z.toNat < b.toNat := by omega
                simp only [hab, hba, hbz, hzb, if_false]
                exact ih bs zs0 h

theorem msg_type_filter_sublist (mt : Option String) :
    ∀ rows res : List DBRow, msg_type_filter mt rows = .ok res →
      res.Sublist rows := by
  intro rows
  induction rows with
  | nil =>
    intro res h
    simp only [msg_type_filter] at h
    rw [← Except.ok.inj h]
  | cons r rest ih =>
    intro res h
    simp only [msg_type_filter] at h
    cases mt with
    | none =>
      rcases htl : msg_type_filter none rest with e | tail
      · rw [htl] at h
        exact absurd h (by simp)
      · rw [htl] at h
        simp only at h
        rw [← Except.ok.inj h]
        exact (ih tail htl).cons₂ r
    | some m =>
      rcases hty : get_message_type r.message with e | ty
      · rw [hty] at h
        exact absurd h (by simp)
      · rw [hty] at h
        rcases htl : msg_type_filter (some m) rest with e | tail
        · rw [htl] at h
          exact absurd h (by simp)
        · rw [htl] at h
          simp only at h
          rw [← Except.ok.inj h]
          by_cases hm : (ty == m) = true
          · simp only [hm, if_true]
            exact (ih tail htl).cons₂ r
          · simp only [hm, Bool.false_eq_true, if_false]
            exact (ih tail htl).cons r

theorem msg_type_filter_types (m : String) :
    ∀ rows res : List DBRow, msg_type_filter (some m) rows = .ok res →
      ∀ r ∈ res, get_message_type r.message = .ok m := by
  intro rows
  induction rows with
  | nil =>
    intro res h r hr
    simp only [msg_type_filter] at h
    rw [← Except.ok.inj h] at hr
    simp at hr
  | cons r0 rest ih =>
    intro res h r hr
    simp only [msg_type_filter] at h
    rcases hty : get_message_type r0.message with e | ty
    · rw [hty] at h
      exact absurd h (by simp)
    · rw [hty] at h
      rcases htl : msg_type_filter (some m) rest with e | tail
      · rw [htl] at h
        exact absurd h (by simp)
      · rw [htl] at h
        simp only at h
        rw [← Except.ok.inj h] at hr
        by_cases hm : (ty == m) = true
        · simp only [hm, if_true] at hr
          rcases List.mem_cons.mp hr with rfl | hr
          · rw [hty]
            exact congrArg Except.ok (eq_of_beq hm)
          · exact ih tail htl r hr
        · simp only [hm, Bool.false_eq_true, if_false] at hr
          exact ih tail htl r hr

theorem strLtB_asymm (s t : String) (h : strLtB s t = true) : strLtB t s = false :=
  listLtChars_asymm s.data t.data h

theorem strLtB_cotrans (s t u : String) (h : strLtB s u = true) :
    strLtB s t = true ∨ strLtB t u = true :=
  listLtChars_cotrans s.data t.data u.data h

theorem search_logs_core (rows2 : List DBRow) (mt2 : Option String)
    (limit : Nat) (res : List DBRow)
    (h : msg_type_filter mt2
      ((insertionSortBy (fun a b : DBRow => !strLtB a.log_id b.log_id)
        rows2).take limit) = .ok res) :
    res.length ≤ limit ∧
    List.Pairwise (fun a b : DBRow => strLtB a.log_id b.log_id = false) res ∧
    (∀ r ∈ res, r ∈ rows2) ∧
    (∀ m, mt2 = some m → ∀ r ∈ res, get_message_type r.message = .ok m) := by
  have hsub := msg_type_filter_sublist mt2 _ res h
  have htake := List.take_sublist limit
    (insertionSortBy (fun a b : DBRow => !strLtB a.log_id b.log_id) rows2)
  refine ⟨?_, ?_, ?_, ?_⟩
  · calc res.length ≤ _ := hsub.length_le
      _ ≤ limit := by
        rw [List.length_take]
        exact min_le_left _ _
  · have htot : ∀ x y : DBRow, (!strLtB x.log_id y.log_id) = true ∨
        (!strLtB y.log_id x.log_id) = true := by
      intro x y
      cases hb : strLtB x.log_id y.log_id with
      | false => exact Or.inl rfl
      | true => exact Or.inr (by rw [strLtB_asymm _ _ hb]; rfl)
    have htrans : ∀ x y z : DBRow, (!strLtB x.log_id y.log_id) = true →
        (!strLtB y.log_id z.log_id) = true →
        (!strLtB x.log_id z.log_id) = true := by
      intro x y z hxy hyz
      cases hc : strLtB x.log_id z.log_id with
      | false => rfl
      | true =>
        rcases strLtB_cotrans _ y.log_id _ hc with h1 | h1
        · rw [h1] at hxy
          exact absurd hxy (by decide)
        · rw [h1] at hyz
          exact absurd hyz (by decide)
    have hpair := pairwise_insertionSortBy
      (fun a b : DBRow => !strLtB a.log_id b.log_id) htot htrans rows2
    have hp2 := hpair.sublist (hsub.trans htake)
    exact hp2.imp (fun hab => by simpa using hab)
  · intro r hr
    have := (hsub.trans htake).subset hr
    exact (mem_insertionSortBy _ r rows2).mp this
  · intro m hm r hr
    rw [hm] at h
    exact msg_type_filter_types m _ res h r hr

/-- **C8 (amended)** `search` returns at most `limit` rows, ordered by
`log_id` descending (not newest-first by timestamp); every returned row is
a stored row that matches the case-insensitive substring (when the term is
nonempty) and the transport filter (when nonempty); the message-type filter
runs only after the SQL `ORDER BY log_id DESC LIMIT`, so it further shrinks
the already-limited page (every returned row classifies to a requested
nonempty type, but matching rows outside the page are never returned). -/
theorem search_logs_amended (rows : List DBRow) (term : String)
    (mt tt : Option String) (limit : Nat) (res : List DBRow)
    (h : search_logs (some rows) term mt tt limit = .ok res) :
    res.length ≤ limit ∧
    List.Pairwise (fun a b : DBRow => strLtB a.log_id b.log_id = false) res ∧
    ∀ r ∈ res, r ∈ rows ∧
      (strIsEmpty term = false → like_contains term r.message = true) ∧
      (∀ t, tt = some t → strIsEmpty t = false → r.transport_type = some t) ∧
      (∀ m, mt = some m → strIsEmpty m = false →
        get_message_type r.message = .ok m) := by
  have hc := search_logs_core _ _ limit res h
  rcases hc with ⟨hlen, hpair, hmem, htype⟩
  refine ⟨hlen, hpair, ?_⟩
  intro r hr
  have hr2 := hmem r hr
  have step : r ∈ (if strIsEmpty term then rows
      else rows.filter (fun r => like_contains term r.message)) ∧
      (∀ t, tt = some t → strIsEmpty t = false → r.transport_type = some t) := by
    cases tt with
    | none =>
      refine ⟨hr2, ?_⟩
      intro t ht
      exact absurd ht (by simp)
    | some t =>
      have hr2' : r ∈ (if strIsEmpty t then
          (if strIsEmpty term then rows
           else rows.filter (fun r => like_contains term r.message))
        else (if strIsEmpty term then rows
           else rows.filter (fun r => like_contains term r.message)).filter
             (fun r => r.transport_type == some t)) := hr2
      by_cases hte : strIsEmpty t = true
      · simp only [if_pos hte] at hr2'
        refine ⟨hr2', ?_⟩
        intro t2 ht2 hte2
        rw [← Option.some.inj ht2] at hte2
        rw [hte] at hte2
        exact absurd hte2 (by simp)
      · simp only [if_neg hte] at hr2'
        rcases List.mem_filter.mp hr2' with ⟨hr1, hbeq⟩
        refine ⟨hr1, ?_⟩
        intro t2 ht2 hte2
        rw [← Option.some.inj ht2]
        exact eq_of_beq hbeq
  rcases step with ⟨hr1, httfact⟩
  have hrows : r ∈ rows ∧
      (strIsEmpty term = false → like_contains term r.message = true) := by
    by_cases hterm : strIsEmpty term = true
    · simp only [if_pos hterm] at hr1
      refine ⟨hr1, ?_⟩
      intro hf
      rw [hterm] at hf
      exact absurd hf (by simp)
    · simp only [if_neg hterm] at hr1
      rcases List.mem_filter.mp hr1 with ⟨hin, hlike⟩
      exact ⟨hin, fun _ => hlike⟩
  refine ⟨hrows.1, hrows.2, httfact, ?_⟩
  intro m hm hme
  subst hm
  refine htype m ?_ r hr
  show (if strIsEmpty m then none else some m) = some m
  simp [hme]

theorem search_logs_amended_witness :
    search_logs (some [c8_row_resp]) "" none none 5 = .ok [c8_row_resp] ∧
    ([c8_row_resp] : List DBRow).length ≤ 5 ∧
    List.Pairwise (fun a b : DBRow => strLtB a.log_id b.log_id = false)
      [c8_row_resp] ∧
    ∀ r ∈ ([c8_row_resp] : List DBRow), r ∈ [c8_row_resp] ∧
      (strIsEmpty "" = false → like_contains "" r.message = true) ∧
      (∀ t, (none : Option String) = some t → strIsEmpty t = false →
        r.transport_type = some t) ∧
      (∀ m, (none : Option String) = some m → strIsEmpty m = false →
        get_message_type r.message = .ok m) :=
  ⟨by decide, search_logs_amended [c8_row_resp] "" none none 5 [c8_row_resp]
    (by decide)⟩
